import Mathlib

/-!
Verification of the scatter-reduction subsystem of the S_DPVSLAM repository
(file src/dpvslam/scatter_ops.py): grouped sum, max and softmax reductions
over dense multi-dimensional arrays, driven by a group-index array.

The embedding models a dense tensor as a shape (list of dimension sizes)
together with a total data function from coordinate lists to element values;
only coordinates that are valid for the shape (enumerated by allCoords) are
meaningful.  Element values of float tensors are idealized as exact numbers:
rationals (or reals for the softmax, which needs the exponential); the IEEE
value negative infinity, which scatter_max manipulates explicitly, is
modelled as the bottom element of WithBot.  The torch primitives used by the
source (scatter_add, scatter_reduce with amax, gather, view, expand) are
modelled by their documented semantics; scatter_add and scatter_reduce are
modelled operationally, as a fold of per-element updates over all source
coordinates.  Fallible steps return Except.
-/

namespace SDPV

/-- Kinds of synchronous errors the modelled operations can raise:
failure of max over an empty tensor while inferring the group count, and
structurally incompatible shapes during broadcasting. -/
inductive TensorError : Type where
  | emptyMax : TensorError
  | shapeError : TensorError
deriving DecidableEq, Repr

/-- A dense multi-dimensional array: a shape and a total data function on
coordinate lists.  Only coordinates valid for the shape are meaningful. -/
structure Tensor (α : Type) : Type where
  shape : List ℕ
  data : List ℕ → α

/-- Number of elements, the product of the dimension sizes. -/
def Tensor.numel {α : Type} (t : Tensor α) : ℕ := t.shape.prod

/-- Number of dimensions. -/
def Tensor.rank {α : Type} (t : Tensor α) : ℕ := t.shape.length

/-- All valid coordinates of a shape, in row-major order. -/
def allCoords : List ℕ → List (List ℕ)
  | [] => [[]]
  | d :: ds => (List.range d).flatMap (fun i => (allCoords ds).map (i :: ·))

/-- Pointwise map, preserving the shape. -/
def Tensor.map {α β : Type} (t : Tensor α) (f : α → β) : Tensor β :=
  ⟨t.shape, fun p => f (t.data p)⟩

/-- Elementwise combination of two tensors of the same shape (the only way
the source combines tensors; broadcasting between mismatched shapes is not
exercised by it). -/
def Tensor.zip {α β γ : Type} (a : Tensor α) (b : Tensor β) (f : α → β → γ) : Tensor γ :=
  ⟨a.shape, fun p => f (a.data p) (b.data p)⟩

/-- Replace the value at one coordinate by a function of the old value. -/
def Tensor.update {α : Type} (t : Tensor α) (c : List ℕ) (f : α → α) : Tensor α :=
  ⟨t.shape, fun p => if p = c then f (t.data p) else t.data p⟩

/-- Row-major linear index of a coordinate in a shape. -/
def flattenIndex : List ℕ → List ℕ → ℕ
  | [], _ => 0
  | _ :: _, [] => 0
  | _ :: ds, i :: is => i * ds.prod + flattenIndex ds is

/-- Coordinate of a row-major linear index in a shape. -/
def unflattenIndex : List ℕ → ℕ → List ℕ
  | [], _ => []
  | _ :: ds, i => (i / ds.prod) :: unflattenIndex ds (i % ds.prod)

/-- Model of torch reshaping (Tensor.view): same elements in row-major
order, reinterpreted under the new shape.  The source only calls it with a
shape of equal element count, where the torch-side count check passes. -/
def Tensor.view {α : Type} (t : Tensor α) (sh : List ℕ) : Tensor α :=
  ⟨sh, fun p => t.data (unflattenIndex t.shape (flattenIndex sh p))⟩

/-- The torch expand compatibility check between an input shape and a target
shape of the same rank: each input dimension must equal the target dimension
or be of size one. -/
def canExpand (s t : List ℕ) : Bool :=
  s.length == t.length &&
    (List.zip s t).all (fun pr => pr.1 == pr.2 || pr.1 == 1)

/-- Model of torch broadcasting (Tensor.expand / Tensor.expand_as) to a
target shape of the same rank: a size-one dimension is stretched by reading
coordinate zero; incompatible shapes raise a shape error. -/
def Tensor.expand {α : Type} (t : Tensor α) (sh : List ℕ) : Except TensorError (Tensor α) :=
  if canExpand t.shape sh then
    .ok ⟨sh, fun p => t.data (List.zipWith (fun s c => if s = 1 then 0 else c) t.shape p)⟩
  else
    .error .shapeError

/-- Model of torch gather along axis d: the output has the index shape, and
each output element reads the input at its own coordinate with the entry at
d replaced by the index value there. -/
def Tensor.gather {α : Type} (t : Tensor α) (d : ℕ) (index : Tensor ℤ) : Tensor α :=
  ⟨index.shape, fun p => t.data (p.set d (index.data p).toNat)⟩

/-- Operational model of torch scatter_add along axis d: for every valid
coordinate q of the index tensor, add the source element at q into the
output coordinate obtained from q by replacing its entry at d with the index
value at q. -/
def Tensor.scatter_add {α : Type} [Add α] (out : Tensor α) (d : ℕ)
    (index : Tensor ℤ) (src : Tensor α) : Tensor α :=
  (allCoords index.shape).foldl
    (fun acc q => acc.update (q.set d (index.data q).toNat) (· + src.data q)) out

/-- Operational model of torch scatter_reduce with the amax reduction along
axis d: every source element is folded into its output slot with max.  The
source calls it with include_self equal to false on a tensor filled with
negative infinity (bottom), for which taking the running max against the
initial bottom value coincides with excluding the initial value. -/
def Tensor.scatter_reduce_amax {β : Type} [LinearOrder β] (out : Tensor β) (d : ℕ)
    (index : Tensor ℤ) (src : Tensor β) : Tensor β :=
  (allCoords index.shape).foldl
    (fun acc q => acc.update (q.set d (index.data q).toNat) (fun v => max v (src.data q))) out

/-- Normalization of a possibly negative axis against a rank, as performed
by python list indexing and by torch dimension arguments: a negative axis
counts from the end.  Every use of the axis in the source normalizes it this
way against the (common) rank of the source tensor, so the model normalizes
once up front. -/
def normDim (r : ℕ) (dim : ℤ) : ℕ := (dim % (r : ℤ)).toNat

/-- Group-count resolution shared by the three operations (lines 30-31,
77-78 and 116-117 of scatter_ops.py): an explicitly supplied dim_size is
used as is, otherwise the maximum index value plus one is used; taking the
maximum of a tensor with no elements is a synchronous error in torch. -/
def resolveDimSize (index : Tensor ℤ) (dim_size : Option ℤ) : Except TensorError ℤ :=
  match dim_size with
  | some n => .ok n
  | none =>
    match (allCoords index.shape).map index.data with
    | [] => .error .emptyMax
    | v :: vs => .ok (vs.foldl max v + 1)

/-- Translation of _expand_index (scatter_ops.py lines 44-56) with the axis
already normalized.  If the index has the same rank as the source it is
broadcast to the source shape; otherwise it is reshaped to a shape that is
one everywhere except at the axis, which holds the element count, and then
broadcast to the source shape with the axis size kept from the reshaped
index. -/
def _expand_index_core {α : Type} (index : Tensor ℤ) (src : Tensor α) (d : ℕ) :
    Except TensorError (Tensor ℤ) :=
  if index.rank = src.rank then
    index.expand src.shape
  else
    let view_shape := (List.replicate src.rank 1).set d index.numel
    let indexV := index.view view_shape
    let expand_shape := src.shape.set d (indexV.shape.getD d 1)
    indexV.expand expand_shape

/-- _expand_index of scatter_ops.py: expand the index tensor to match the
source tensor shape, with a possibly negative axis. -/
def _expand_index {α : Type} (index : Tensor ℤ) (src : Tensor α) (dim : ℤ) :
    Except TensorError (Tensor ℤ) :=
  _expand_index_core index src (normDim src.rank dim)

/-- scatter_sum (scatter_ops.py lines 10-41) with the axis already
normalized: resolve the group count, build the output shape from the source
shape with the axis resized to the group count, expand the index, and
scatter-add the source into a zero-filled output. -/
def scatter_sum_core {α : Type} [Add α] [Zero α] (src : Tensor α) (index : Tensor ℤ)
    (d : ℕ) (dim_size : Option ℤ) : Except TensorError (Tensor α) :=
  match resolveDimSize index dim_size with
  | .error e => .error e
  | .ok ds =>
    match _expand_index_core index src d with
    | .error e => .error e
    | .ok index_expanded =>
      .ok (Tensor.scatter_add ⟨src.shape.set d ds.toNat, fun _ => 0⟩ d index_expanded src)

/-- scatter_sum of scatter_ops.py: sum values from src into output at
positions specified by index. -/
def scatter_sum {α : Type} [Add α] [Zero α] (src : Tensor α) (index : Tensor ℤ)
    (dim : ℤ) (dim_size : Option ℤ) : Except TensorError (Tensor α) :=
  scatter_sum_core src index (normDim src.rank dim) dim_size

/-- scatter_max (scatter_ops.py lines 59-93) with the axis already
normalized.  Source elements live in WithBot of a finite value type, bottom
standing for the IEEE value negative infinity: the output accumulator is
filled with negative infinity (torch.full with minus inf), source elements
are folded in with amax, and the final where-step rewrites every remaining
negative infinity to zero, which also refines the element type to the
finite values.  The second component models the dummy all-zero argmax
tensor of integer (long) element type. -/
def scatter_max_core {α : Type} [LinearOrder α] [Zero α] (src : Tensor (WithBot α))
    (index : Tensor ℤ) (d : ℕ) (dim_size : Option ℤ) :
    Except TensorError (Tensor α × Tensor ℤ) :=
  match resolveDimSize index dim_size with
  | .error e => .error e
  | .ok ds =>
    match _expand_index_core index src d with
    | .error e => .error e
    | .ok index_expanded =>
      let out0 : Tensor (WithBot α) := ⟨src.shape.set d ds.toNat, fun _ => ⊥⟩
      let out1 := out0.scatter_reduce_amax d index_expanded src
      let out := out1.map (fun v => v.unbot' 0)
      .ok (out, ⟨out.shape, fun _ => 0⟩)

/-- scatter_max of scatter_ops.py: find maximum values from src at
positions specified by index, together with the dummy argmax tensor. -/
def scatter_max {α : Type} [LinearOrder α] [Zero α] (src : Tensor (WithBot α))
    (index : Tensor ℤ) (dim : ℤ) (dim_size : Option ℤ) :
    Except TensorError (Tensor α × Tensor ℤ) :=
  scatter_max_core src index (normDim src.rank dim) dim_size

/-- scatter_softmax (scatter_ops.py lines 96-132) with the axis already
normalized: resolve the group count, expand the index, compute per-group
maxima (on the source coerced into the value type with negative infinity),
gather each element's group maximum back and subtract it, exponentiate, sum
the exponentials per group, and divide by the gathered per-group sum clamped
from below by the epsilon 1e-12. -/
noncomputable def scatter_softmax_core (src : Tensor ℝ) (index : Tensor ℤ)
    (d : ℕ) (dim_size : Option ℤ) : Except TensorError (Tensor ℝ) :=
  match resolveDimSize index dim_size with
  | .error e => .error e
  | .ok ds =>
    match _expand_index_core index src d with
    | .error e => .error e
    | .ok index_expanded =>
      match scatter_max_core (src.map (fun x => (x : WithBot ℝ))) index d (some ds) with
      | .error e => .error e
      | .ok mx =>
        let src_centered := Tensor.zip src (mx.1.gather d index_expanded) (fun a b => a - b)
        let src_exp := src_centered.map Real.exp
        match scatter_sum_core src_exp index d (some ds) with
        | .error e => .error e
        | .ok sum_exp =>
          .ok (Tensor.zip src_exp
            ((sum_exp.gather d index_expanded).map (fun v => max v (1e-12 : ℝ)))
            (fun a b => a / b))

/-- scatter_softmax of scatter_ops.py: compute softmax over groups defined
by index. -/
noncomputable def scatter_softmax (src : Tensor ℝ) (index : Tensor ℤ)
    (dim : ℤ) (dim_size : Option ℤ) : Except TensorError (Tensor ℝ) :=
  scatter_softmax_core src index (normDim src.rank dim) dim_size

/-- Whether an Except value is a success. -/
def isOkE {β : Type} (e : Except TensorError β) : Bool :=
  match e with
  | .ok _ => true
  | .error _ => false

/-- The success value of an Except, or a default on error. -/
def okOr {β : Type} (e : Except TensorError β) (dflt : β) : β :=
  match e with
  | .ok b => b
  | .error _ => dflt

/-- The trivial default tensor used to state results through okOr. -/
def defaultTensor (α : Type) [Zero α] : Tensor α := ⟨[], fun _ => 0⟩

theorem okOr_spec {β : Type} {e : Except TensorError β} (dflt : β)
    (h : isOkE e = true) : e = .ok (okOr e dflt) := by
  cases e with
  | ok b => rfl
  | error e => simp [isOkE] at h

end SDPV

namespace SDPV

theorem getD_set_self {β : Type} (l : List β) (i : ℕ) (a dflt : β) (h : i < l.length) :
    (l.set i a).getD i dflt = a := by
  induction l generalizing i with
  | nil => simp at h
  | cons x xs ih =>
    cases i with
    | zero => rfl
    | succ n => exact ih n (by simpa using h)

theorem getD_set_ne {β : Type} (l : List β) {i j : ℕ} (a dflt : β) (h : i ≠ j) :
    (l.set i a).getD j dflt = l.getD j dflt := by
  induction l generalizing i j with
  | nil => simp
  | cons x xs ih =>
    cases i with
    | zero =>
      cases j with
      | zero => exact absurd rfl h
      | succ m => rfl
    | succ n =>
      cases j with
      | zero => rfl
      | succ m => exact ih (fun hc => h (by rw [hc]))

theorem set_getD_self {β : Type} (l : List β) (i : ℕ) (dflt : β) (h : i < l.length) :
    l.set i (l.getD i dflt) = l := by
  induction l generalizing i with
  | nil => simp at h
  | cons x xs ih =>
    cases i with
    | zero => rfl
    | succ n => simpa using ih n (by simpa using h)

theorem mem_allCoords {sh p : List ℕ} :
    p ∈ allCoords sh ↔ List.Forall₂ (fun a b => a < b) p sh := by
  induction sh generalizing p with
  | nil =>
    simp only [allCoords, List.mem_singleton, List.forall₂_nil_right_iff]
  | cons d ds ih =>
    simp only [allCoords, List.mem_flatMap, List.mem_map, List.mem_range]
    constructor
    · rintro ⟨i, hi, q, hq, rfl⟩
      exact List.Forall₂.cons hi (ih.mp hq)
    · intro h
      cases p with
      | nil => exact absurd (List.forall₂_nil_left_iff.mp h) (by simp)
      | cons a as =>
        rcases List.forall₂_cons.mp h with ⟨hab, htl⟩
        exact ⟨a, hab, as, ih.mpr htl, rfl⟩

theorem allCoords_length {sh p : List ℕ} (h : p ∈ allCoords sh) : p.length = sh.length :=
  (mem_allCoords.mp h).length_eq

theorem forall₂_lt_iff_getD {p sh : List ℕ} :
    List.Forall₂ (fun a b => a < b) p sh ↔
      p.length = sh.length ∧ ∀ i < sh.length, p.getD i 0 < sh.getD i 0 := by
  induction sh generalizing p with
  | nil =>
    simp [List.forall₂_nil_right_iff, List.length_eq_zero]
  | cons d ds ih =>
    cases p with
    | nil =>
      simp only [List.forall₂_nil_left_iff]
      constructor
      · intro h; cases h
      · rintro ⟨h, _⟩; simp at h
    | cons a as =>
      rw [List.forall₂_cons, ih]
      constructor
      · rintro ⟨h0, hlen, hrest⟩
        refine ⟨by simpa using hlen, ?_⟩
        intro i hi
        cases i with
        | zero => simpa using h0
        | succ n => exact hrest n (by simpa using hi)
      · rintro ⟨hlen, hall⟩
        refine ⟨by simpa using hall 0 (by simp), by simpa using hlen, ?_⟩
        intro i hi
        exact hall (i + 1) (by simpa using hi)

theorem mem_allCoords_getD {sh p : List ℕ} :
    p ∈ allCoords sh ↔
      p.length = sh.length ∧ ∀ i < sh.length, p.getD i 0 < sh.getD i 0 := by
  rw [mem_allCoords, forall₂_lt_iff_getD]

theorem nodup_allCoords (sh : List ℕ) : (allCoords sh).Nodup := by
  induction sh with
  | nil => simp [allCoords]
  | cons d ds ih =>
    unfold allCoords
    rw [List.nodup_flatMap]
    constructor
    · intro i _
      exact ih.map (fun a b hab => by injection hab)
    · refine (List.pairwise_lt_range d).imp ?_
      intro i j hij
      intro x hx hy
      rcases List.mem_map.mp hx with ⟨q, _, rfl⟩
      rcases List.mem_map.mp hy with ⟨q', _, heq⟩
      injection heq with h1 _
      exact absurd h1 (Nat.ne_of_gt hij)

theorem allCoords_eq_nil {sh : List ℕ} (h : sh.prod = 0) : allCoords sh = [] := by
  induction sh with
  | nil => simp at h
  | cons d ds ih =>
    unfold allCoords
    rw [List.prod_cons] at h
    rcases Nat.mul_eq_zero.mp h with hd | hds
    · subst hd; simp
    · rw [ih hds]
      simp

end SDPV

namespace SDPV

theorem update_shape {α : Type} (t : Tensor α) (c : List ℕ) (f : α → α) :
    (t.update c f).shape = t.shape := rfl

theorem foldl_update_shape {α : Type} (coords : List (List ℕ)) (T : Tensor α)
    (tgt : List ℕ → List ℕ) (g : List ℕ → α → α) :
    ((coords.foldl (fun acc q => acc.update (tgt q) (fun v => g q v)) T)).shape = T.shape := by
  induction coords generalizing T with
  | nil => rfl
  | cons q rest ih => exact (ih _).trans rfl

theorem foldl_update_data_add {α : Type} [AddMonoid α] (coords : List (List ℕ)) (T : Tensor α)
    (tgt : List ℕ → List ℕ) (f : List ℕ → α) (p : List ℕ) :
    ((coords.foldl (fun acc q => acc.update (tgt q) (fun v => v + f q)) T)).data p =
      T.data p + (((coords.filter (fun q => tgt q = p)).map f).sum) := by
  induction coords generalizing T with
  | nil => simp
  | cons q rest ih =>
    rw [List.foldl_cons, ih]
    by_cases hq : tgt q = p
    · have hfil : (q :: rest).filter (fun q => tgt q = p) =
          q :: rest.filter (fun q => tgt q = p) := by
        simp [List.filter_cons, hq]
      rw [hfil, List.map_cons, List.sum_cons, Tensor.update]
      simp only [hq.symm]
      simp [add_assoc]
    · have hfil : (q :: rest).filter (fun q => tgt q = p) =
          rest.filter (fun q => tgt q = p) := by
        simp [List.filter_cons, hq]
      rw [hfil, Tensor.update]
      simp only []
      have : (if p = tgt q then T.data p + f q else T.data p) = T.data p := by
        rw [if_neg (fun hc => hq hc.symm)]
      simp only [this]

theorem foldl_update_data_max {β : Type} [LinearOrder β] (coords : List (List ℕ)) (T : Tensor β)
    (tgt : List ℕ → List ℕ) (f : List ℕ → β) (p : List ℕ) :
    ((coords.foldl (fun acc q => acc.update (tgt q) (fun v => max v (f q))) T)).data p =
      (((coords.filter (fun q => tgt q = p)).map f).foldl max (T.data p)) := by
  induction coords generalizing T with
  | nil => simp
  | cons q rest ih =>
    rw [List.foldl_cons, ih]
    by_cases hq : tgt q = p
    · have hfil : (q :: rest).filter (fun q => tgt q = p) =
          q :: rest.filter (fun q => tgt q = p) := by
        simp [List.filter_cons, hq]
      rw [hfil, List.map_cons, List.foldl_cons, Tensor.update]
      simp only [hq.symm]
      simp
    · have hfil : (q :: rest).filter (fun q => tgt q = p) =
          rest.filter (fun q => tgt q = p) := by
        simp [List.filter_cons, hq]
      rw [hfil, Tensor.update]
      simp only []
      have : (if p = tgt q then max (T.data p) (f q) else T.data p) = T.data p := by
        rw [if_neg (fun hc => hq hc.symm)]
      simp only [this]

theorem le_foldl_max {β : Type} [LinearOrder β] (l : List β) (b : β) : b ≤ l.foldl max b := by
  induction l generalizing b with
  | nil => simp
  | cons x xs ih => exact le_trans (le_max_left b x) (ih (max b x))

theorem mem_le_foldl_max {β : Type} [LinearOrder β] {l : List β} {x : β} (h : x ∈ l) (b : β) :
    x ≤ l.foldl max b := by
  induction l generalizing b with
  | nil => simp at h
  | cons y ys ih =>
    rcases List.mem_cons.mp h with rfl | hx
    · exact le_trans (le_max_right b x) (le_foldl_max ys (max b x))
    · exact ih hx (max b y)

theorem foldl_max_mem {β : Type} [LinearOrder β] (l : List β) (b : β) :
    l.foldl max b = b ∨ l.foldl max b ∈ l := by
  induction l generalizing b with
  | nil => left; rfl
  | cons x xs ih =>
    rw [List.foldl_cons]
    rcases ih (max b x) with h | h
    · rw [h]
      rcases max_cases b x with ⟨he, _⟩ | ⟨he, _⟩
      · left; exact he
      · right; rw [he]; exact List.mem_cons_self x xs
    · right; exact List.mem_cons_of_mem x h

theorem foldl_max_all_bot {α : Type} [LinearOrder α] {l : List (WithBot α)}
    (h : ∀ x ∈ l, x = ⊥) : l.foldl max ⊥ = ⊥ := by
  rcases foldl_max_mem l ⊥ with he | he
  · exact he
  · exact h _ he

end SDPV

namespace SDPV

theorem canExpand_nil_iff {b : List ℕ} : canExpand [] b = true ↔ b = [] := by
  cases b with
  | nil => simp [canExpand]
  | cons y ys => simp [canExpand]

theorem canExpand_cons {x y : ℕ} {xs ys : List ℕ} :
    canExpand (x :: xs) (y :: ys) = true ↔ (x = y ∨ x = 1) ∧ canExpand xs ys = true := by
  simp only [canExpand, List.zip_cons_cons, List.all_cons, List.length_cons,
    Bool.and_eq_true, Bool.or_eq_true, beq_iff_eq, Nat.add_right_cancel_iff]
  tauto

theorem canExpand_nil_left {b : List ℕ} (h : canExpand [] b = true) : b = [] :=
  canExpand_nil_iff.mp h

theorem pick_valid {a b p : List ℕ} (h : canExpand a b = true)
    (hp : List.Forall₂ (fun u v => u < v) p b) :
    List.Forall₂ (fun u v => u < v)
      (List.zipWith (fun s c => if s = 1 then 0 else c) a p) a := by
  induction a generalizing b p with
  | nil => simp
  | cons x xs ih =>
    cases b with
    | nil =>
      exfalso
      simp [canExpand] at h
    | cons y ys =>
      rcases canExpand_cons.mp h with ⟨hxy, hrest⟩
      cases hp with
      | cons hpv hptl =>
        rename_i pa pas
        rw [List.zipWith_cons_cons]
        refine List.Forall₂.cons ?_ (ih hrest hptl)
        by_cases hx1 : x = 1
        · simp [hx1]
        · rw [if_neg hx1]
          rcases hxy with rfl | h1
          · exact hpv
          · exact absurd h1 hx1

theorem flattenIndex_lt {sh p : List ℕ} (h : List.Forall₂ (fun u v => u < v) p sh) :
    flattenIndex sh p < sh.prod := by
  induction h with
  | nil => simp [flattenIndex]
  | cons hv htl ih =>
    rename_i i s is ss
    rw [flattenIndex, List.prod_cons]
    calc i * ss.prod + flattenIndex ss is
        < i * ss.prod + ss.prod := by omega
      _ = (i + 1) * ss.prod := by ring
      _ ≤ s * ss.prod := Nat.mul_le_mul_right _ hv

theorem unflatten_forall₂ {sh : List ℕ} {i : ℕ} (h : i < sh.prod) :
    List.Forall₂ (fun u v => u < v) (unflattenIndex sh i) sh := by
  induction sh generalizing i with
  | nil => simp [unflattenIndex]
  | cons s ss ih =>
    rw [List.prod_cons] at h
    have hpos : 0 < ss.prod := by
      rcases Nat.eq_zero_or_pos ss.prod with h0 | h0
      · rw [h0, Nat.mul_zero] at h; omega
      · exact h0
    rw [unflattenIndex]
    refine List.Forall₂.cons ?_ (ih (Nat.mod_lt _ hpos))
    exact (Nat.div_lt_iff_lt_mul hpos).mpr h

theorem prod_replicate_set {r d m : ℕ} (h : d < r) :
    ((List.replicate r 1).set d m).prod = m := by
  induction r generalizing d with
  | zero => omega
  | succ n ih =>
    rw [List.replicate_succ]
    cases d with
    | zero =>
      simp [List.prod_replicate]
    | succ k =>
      rw [List.set_cons_succ, List.prod_cons, ih (by omega), one_mul]

theorem length_replicate_set (r d m : ℕ) : ((List.replicate r 1).set d m).length = r := by
  rw [List.length_set, List.length_replicate]

theorem canExpand_ones {n : ℕ} {sh : List ℕ} (hlen : sh.length = n) :
    canExpand (List.replicate n 1) sh = true := by
  induction sh generalizing n with
  | nil =>
    subst hlen
    simp [canExpand]
  | cons t ts ih =>
    subst hlen
    rw [List.length_cons, List.replicate_succ, canExpand_cons]
    exact ⟨Or.inr rfl, ih rfl⟩

theorem canExpand_ones_set {r d m : ℕ} {sh : List ℕ} (hlen : sh.length = r) (hd : d < r) :
    canExpand ((List.replicate r 1).set d m) (sh.set d m) = true := by
  induction r generalizing d sh with
  | zero => omega
  | succ n ih =>
    cases sh with
    | nil => simp at hlen
    | cons s ss =>
      rw [List.replicate_succ]
      cases d with
      | zero =>
        rw [List.set_cons_zero, List.set_cons_zero, canExpand_cons]
        exact ⟨Or.inl rfl, canExpand_ones (by simpa using hlen)⟩
      | succ k =>
        rw [List.set_cons_succ, List.set_cons_succ, canExpand_cons]
        exact ⟨Or.inr rfl, ih (by simpa using hlen) (by omega)⟩

/-- Every valid coordinate of the expanded index reads a value stored at a
valid coordinate of the original index: index expansion only broadcasts
existing index values around. -/
theorem expand_index_values {α : Type} {index : Tensor ℤ} {src : Tensor α} {d : ℕ}
    {iexp : Tensor ℤ} (hd : d < src.rank)
    (hE : _expand_index_core index src d = .ok iexp) :
    ∀ p ∈ allCoords iexp.shape, ∃ q ∈ allCoords index.shape, iexp.data p = index.data q := by
  unfold _expand_index_core at hE
  by_cases hr : index.rank = src.rank
  · rw [if_pos hr] at hE
    unfold Tensor.expand at hE
    by_cases hcan : canExpand index.shape src.shape = true
    · rw [if_pos hcan] at hE
      injection hE with hE
      subst hE
      intro p hp
      refine ⟨List.zipWith (fun s c => if s = 1 then 0 else c) index.shape p, ?_, rfl⟩
      exact mem_allCoords.mpr (pick_valid hcan (mem_allCoords.mp hp))
    · rw [if_neg hcan] at hE
      exact absurd hE (by simp)
  · rw [if_neg hr] at hE
    simp only [] at hE
    unfold Tensor.expand at hE
    by_cases hcan : canExpand (index.view ((List.replicate src.rank 1).set d index.numel)).shape
        (src.shape.set d ((index.view ((List.replicate src.rank 1).set d index.numel)).shape.getD d 1)) = true
    · rw [if_pos hcan] at hE
      injection hE with hE
      subst hE
      intro p hp
      simp only [Tensor.view] at hcan hp ⊢
      set vs := (List.replicate src.rank 1).set d index.numel with hvs
      refine ⟨unflattenIndex index.shape
        (flattenIndex vs (List.zipWith (fun s c => if s = 1 then 0 else c) vs p)), ?_, rfl⟩
      have hpick : List.Forall₂ (fun u v => u < v)
          (List.zipWith (fun s c => if s = 1 then 0 else c) vs p) vs :=
        pick_valid hcan (mem_allCoords.mp hp)
      have hflat : flattenIndex vs (List.zipWith (fun s c => if s = 1 then 0 else c) vs p)
          < vs.prod := flattenIndex_lt hpick
      rw [hvs, prod_replicate_set hd] at hflat
      exact mem_allCoords.mpr (unflatten_forall₂ hflat)
    · rw [if_neg hcan] at hE
      exact absurd hE (by simp)

end SDPV

namespace SDPV

/-- The contributors of an output coordinate under scatter along axis d are
exactly the source coordinates obtained by sliding the output coordinate
along the axis to a position whose index value points back at the output
slot. -/
theorem contrib_mem_iff {sh : List ℕ} {d : ℕ} (hd : d < sh.length) (iexp : Tensor ℤ)
    {p₀ : List ℕ} (hlen : p₀.length = sh.length)
    (hoff : ∀ i < sh.length, i ≠ d → p₀.getD i 0 < sh.getD i 0) (q : List ℕ) :
    (q ∈ allCoords sh ∧ q.set d (iexp.data q).toNat = p₀) ↔
      ∃ j, j < sh.getD d 0 ∧ (iexp.data (p₀.set d j)).toNat = p₀.getD d 0 ∧
        q = p₀.set d j := by
  constructor
  · rintro ⟨hq, hset⟩
    rcases mem_allCoords_getD.mp hq with ⟨hqlen, hqbd⟩
    have hdq : d < q.length := by omega
    refine ⟨q.getD d 0, hqbd d hd, ?_, ?_⟩
    · have h1 : q = p₀.set d (q.getD d 0) := by
        rw [← hset, List.set_set, set_getD_self _ _ _ hdq]
      have h2 : p₀.getD d 0 = (iexp.data q).toNat := by
        rw [← hset, getD_set_self _ _ _ _ hdq]
      rw [← h1, h2]
    · rw [← hset, List.set_set, set_getD_self _ _ _ hdq]
  · rintro ⟨j, hj, hval, rfl⟩
    have hdp : d < p₀.length := by omega
    constructor
    · refine mem_allCoords_getD.mpr ⟨by rw [List.length_set]; exact hlen, ?_⟩
      intro i hi
      by_cases hid : i = d
      · subst hid
        rw [getD_set_self _ _ _ _ hdp]
        exact hj
      · rw [getD_set_ne _ _ _ (fun hc => hid hc.symm)]
        exact hoff i hi hid
    · rw [List.set_set, hval, set_getD_self _ _ _ hdp]

theorem contrib_filter_perm {sh : List ℕ} {d : ℕ} (hd : d < sh.length) (iexp : Tensor ℤ)
    {p₀ : List ℕ} (hlen : p₀.length = sh.length)
    (hoff : ∀ i < sh.length, i ≠ d → p₀.getD i 0 < sh.getD i 0) :
    ((allCoords sh).filter (fun q => q.set d (iexp.data q).toNat = p₀)).Perm
      (((List.range (sh.getD d 0)).filter
        (fun j => (iexp.data (p₀.set d j)).toNat = p₀.getD d 0)).map (fun j => p₀.set d j)) := by
  have hdp : d < p₀.length := by omega
  have hinj : Function.Injective (fun j => p₀.set d j) := by
    intro j₁ j₂ h
    have h' : (p₀.set d j₁).getD d 0 = (p₀.set d j₂).getD d 0 :=
      congrArg (fun l => l.getD d 0) h
    rw [getD_set_self p₀ d j₁ 0 hdp, getD_set_self p₀ d j₂ 0 hdp] at h'
    exact h'
  refine (List.perm_ext_iff_of_nodup ((nodup_allCoords sh).filter _)
    (((List.nodup_range _).filter _).map hinj)).mpr ?_
  intro q
  rw [List.mem_filter, List.mem_map]
  constructor
  · rintro ⟨hq, hcond⟩
    rcases (contrib_mem_iff hd iexp hlen hoff q).mp ⟨hq, of_decide_eq_true hcond⟩ with
      ⟨j, hj, hval, rfl⟩
    exact ⟨j, List.mem_filter.mpr ⟨List.mem_range.mpr hj, decide_eq_true hval⟩, rfl⟩
  · rintro ⟨j, hjmem, rfl⟩
    rcases List.mem_filter.mp hjmem with ⟨hjr, hval⟩
    have := (contrib_mem_iff hd iexp hlen hoff (p₀.set d j)).mpr
      ⟨j, List.mem_range.mp hjr, of_decide_eq_true hval, rfl⟩
    exact ⟨this.1, decide_eq_true this.2⟩

/-- Value of a scatter-add output slot: the initial value plus the sum of
the source elements scattered into the slot, written as a sum over the
positions along the reduction axis. -/
theorem scatter_add_group {α : Type} [AddCommMonoid α] (out0 : Tensor α) (d : ℕ)
    (iexp : Tensor ℤ) (src : Tensor α) (p₀ : List ℕ)
    (hd : d < iexp.shape.length) (hlen : p₀.length = iexp.shape.length)
    (hoff : ∀ i < iexp.shape.length, i ≠ d → p₀.getD i 0 < iexp.shape.getD i 0) :
    (out0.scatter_add d iexp src).data p₀ =
      out0.data p₀ +
        (((List.range (iexp.shape.getD d 0)).filter
          (fun j => (iexp.data (p₀.set d j)).toNat = p₀.getD d 0)).map
          (fun j => src.data (p₀.set d j))).sum := by
  have h1 := foldl_update_data_add (allCoords iexp.shape) out0
    (fun q => q.set d (iexp.data q).toNat) (fun q => src.data q) p₀
  have hperm := (contrib_filter_perm hd iexp hlen hoff).map (fun q => src.data q)
  have h2 := hperm.sum_eq
  rw [List.map_map] at h2
  unfold Tensor.scatter_add
  rw [h1, h2]
  rfl

/-- Characterization of a scatter-amax output slot: it dominates the
initial value and every contributing element, and it is the initial value
or one of the contributing elements.  Contributions are described by
positions along the reduction axis. -/
theorem scatter_amax_char {β : Type} [LinearOrder β] (out0 : Tensor β) (d : ℕ)
    (iexp : Tensor ℤ) (src : Tensor β) (p₀ : List ℕ)
    (hd : d < iexp.shape.length) (hlen : p₀.length = iexp.shape.length)
    (hoff : ∀ i < iexp.shape.length, i ≠ d → p₀.getD i 0 < iexp.shape.getD i 0) :
    out0.data p₀ ≤ (out0.scatter_reduce_amax d iexp src).data p₀ ∧
    (∀ j < iexp.shape.getD d 0, (iexp.data (p₀.set d j)).toNat = p₀.getD d 0 →
      src.data (p₀.set d j) ≤ (out0.scatter_reduce_amax d iexp src).data p₀) ∧
    ((out0.scatter_reduce_amax d iexp src).data p₀ = out0.data p₀ ∨
      ∃ j, j < iexp.shape.getD d 0 ∧ (iexp.data (p₀.set d j)).toNat = p₀.getD d 0 ∧
        (out0.scatter_reduce_amax d iexp src).data p₀ = src.data (p₀.set d j)) := by
  have h1 := foldl_update_data_max (allCoords iexp.shape) out0
    (fun q => q.set d (iexp.data q).toNat) (fun q => src.data q) p₀
  have hres : (out0.scatter_reduce_amax d iexp src).data p₀ =
      (((allCoords iexp.shape).filter
        (fun q => q.set d (iexp.data q).toNat = p₀)).map (fun q => src.data q)).foldl max
        (out0.data p₀) := h1
  refine ⟨?_, ?_, ?_⟩
  · rw [hres]
    exact le_foldl_max _ _
  · intro j hj hval
    rw [hres]
    refine mem_le_foldl_max ?_ _
    refine List.mem_map.mpr ⟨p₀.set d j, ?_, rfl⟩
    have := (contrib_mem_iff hd iexp hlen hoff (p₀.set d j)).mpr ⟨j, hj, hval, rfl⟩
    exact List.mem_filter.mpr ⟨this.1, decide_eq_true this.2⟩
  · rcases foldl_max_mem (((allCoords iexp.shape).filter
        (fun q => q.set d (iexp.data q).toNat = p₀)).map (fun q => src.data q))
        (out0.data p₀) with hcase | hcase
    · left
      rw [hres, hcase]
    · right
      rw [hres]
      rcases List.mem_map.mp hcase with ⟨q, hqmem, hqeq⟩
      rcases List.mem_filter.mp hqmem with ⟨hq1, hq2⟩
      rcases (contrib_mem_iff hd iexp hlen hoff q).mp ⟨hq1, of_decide_eq_true hq2⟩ with
        ⟨j, hj, hval, rfl⟩
      exact ⟨j, hj, hval, hqeq.symm⟩

end SDPV

namespace SDPV

theorem scatter_add_shape {α : Type} [Add α] (out0 : Tensor α) (d : ℕ)
    (iexp : Tensor ℤ) (src : Tensor α) :
    (out0.scatter_add d iexp src).shape = out0.shape :=
  foldl_update_shape (allCoords iexp.shape) out0
    (fun q => q.set d (iexp.data q).toNat) (fun q v => v + src.data q)

theorem scatter_amax_shape {β : Type} [LinearOrder β] (out0 : Tensor β) (d : ℕ)
    (iexp : Tensor ℤ) (src : Tensor β) :
    (out0.scatter_reduce_amax d iexp src).shape = out0.shape :=
  foldl_update_shape (allCoords iexp.shape) out0
    (fun q => q.set d (iexp.data q).toNat) (fun q v => max v (src.data q))

theorem resolve_some (index : Tensor ℤ) (n : ℤ) :
    resolveDimSize index (some n) = .ok n := rfl

theorem resolve_none_error {index : Tensor ℤ} (h : index.numel = 0) :
    resolveDimSize index none = .error .emptyMax := by
  unfold resolveDimSize
  rw [allCoords_eq_nil h]
  rfl

theorem scatter_sum_core_eq {α : Type} [Add α] [Zero α] {index : Tensor ℤ} {d : ℕ}
    {ds : Option ℤ} {G : ℤ} {iexp : Tensor ℤ} (src : Tensor α)
    (hres : resolveDimSize index ds = .ok G)
    (hE : _expand_index_core index src d = .ok iexp) :
    scatter_sum_core src index d ds =
      .ok (Tensor.scatter_add ⟨src.shape.set d G.toNat, fun _ => 0⟩ d iexp src) := by
  unfold scatter_sum_core
  rw [hres, hE]

theorem scatter_sum_core_err_res {α : Type} [Add α] [Zero α] {index : Tensor ℤ} {d : ℕ}
    {ds : Option ℤ} {e : TensorError} (src : Tensor α)
    (hres : resolveDimSize index ds = .error e) :
    scatter_sum_core src index d ds = .error e := by
  unfold scatter_sum_core
  rw [hres]

theorem scatter_sum_core_err_exp {α : Type} [Add α] [Zero α] {index : Tensor ℤ} {d : ℕ}
    {ds : Option ℤ} {G : ℤ} {e : TensorError} (src : Tensor α)
    (hres : resolveDimSize index ds = .ok G)
    (hE : _expand_index_core index src d = .error e) :
    scatter_sum_core src index d ds = .error e := by
  unfold scatter_sum_core
  rw [hres, hE]

theorem scatter_max_core_eq {α : Type} [LinearOrder α] [Zero α] {index : Tensor ℤ} {d : ℕ}
    {ds : Option ℤ} {G : ℤ} {iexp : Tensor ℤ} (src : Tensor (WithBot α))
    (hres : resolveDimSize index ds = .ok G)
    (hE : _expand_index_core index src d = .ok iexp) :
    scatter_max_core src index d ds =
      .ok (((Tensor.scatter_reduce_amax ⟨src.shape.set d G.toNat, fun _ => ⊥⟩ d iexp
          src).map (fun v => v.unbot' 0)),
        ⟨((Tensor.scatter_reduce_amax ⟨src.shape.set d G.toNat, fun _ => ⊥⟩ d iexp
          src).map (fun v => v.unbot' 0)).shape, fun _ => 0⟩) := by
  unfold scatter_max_core
  rw [hres, hE]

theorem scatter_max_core_err_res {α : Type} [LinearOrder α] [Zero α] {index : Tensor ℤ}
    {d : ℕ} {ds : Option ℤ} {e : TensorError} (src : Tensor (WithBot α))
    (hres : resolveDimSize index ds = .error e) :
    scatter_max_core src index d ds = .error e := by
  unfold scatter_max_core
  rw [hres]

theorem scatter_max_core_err_exp {α : Type} [LinearOrder α] [Zero α] {index : Tensor ℤ}
    {d : ℕ} {ds : Option ℤ} {G : ℤ} {e : TensorError} (src : Tensor (WithBot α))
    (hres : resolveDimSize index ds = .ok G)
    (hE : _expand_index_core index src d = .error e) :
    scatter_max_core src index d ds = .error e := by
  unfold scatter_max_core
  rw [hres, hE]

theorem scatter_softmax_core_err_res {index : Tensor ℤ} {d : ℕ} {ds : Option ℤ}
    {e : TensorError} (src : Tensor ℝ)
    (hres : resolveDimSize index ds = .error e) :
    scatter_softmax_core src index d ds = .error e := by
  unfold scatter_softmax_core
  rw [hres]

end SDPV

namespace SDPV

/-- C7: for every input on which grouped max succeeds, the second component
of the returned pair is an array of the same shape as the first whose
entries are all zero; its element type is the integer type by construction
of the model, and being constantly zero for every source, index, axis and
group count, its values never depend on src or index. -/
theorem claim_C7_argmax_stub (src : Tensor (WithBot ℚ)) (index : Tensor ℤ) (dim : ℤ)
    (ds : Option ℤ) (h : isOkE (scatter_max src index dim ds) = true) :
    (okOr (scatter_max src index dim ds) (defaultTensor ℚ, defaultTensor ℤ)).2.shape =
      (okOr (scatter_max src index dim ds) (defaultTensor ℚ, defaultTensor ℤ)).1.shape ∧
    ∀ p : List ℕ,
      (okOr (scatter_max src index dim ds) (defaultTensor ℚ, defaultTensor ℤ)).2.data p = 0 := by
  unfold scatter_max at h ⊢
  cases hr : resolveDimSize index ds with
  | error e =>
    rw [scatter_max_core_err_res src hr] at h
    simp [isOkE] at h
  | ok G =>
    cases hee : _expand_index_core index src (normDim src.rank dim) with
    | error e =>
      rw [scatter_max_core_err_exp src hr hee] at h
      simp [isOkE] at h
    | ok iexp =>
      rw [scatter_max_core_eq src hr hee]
      exact ⟨rfl, fun p => rfl⟩

theorem claim_C7_argmax_stub_witness :
    isOkE (scatter_max (⟨[2], fun _ => ((3 : ℚ) : WithBot ℚ)⟩ : Tensor (WithBot ℚ))
      (⟨[2], fun _ => (0 : ℤ)⟩ : Tensor ℤ) 0 (some 1)) = true ∧
    ((okOr (scatter_max (⟨[2], fun _ => ((3 : ℚ) : WithBot ℚ)⟩ : Tensor (WithBot ℚ))
        (⟨[2], fun _ => (0 : ℤ)⟩ : Tensor ℤ) 0 (some 1))
        (defaultTensor ℚ, defaultTensor ℤ)).2.shape =
      (okOr (scatter_max (⟨[2], fun _ => ((3 : ℚ) : WithBot ℚ)⟩ : Tensor (WithBot ℚ))
        (⟨[2], fun _ => (0 : ℤ)⟩ : Tensor ℤ) 0 (some 1))
        (defaultTensor ℚ, defaultTensor ℤ)).1.shape ∧
    ∀ p : List ℕ,
      (okOr (scatter_max (⟨[2], fun _ => ((3 : ℚ) : WithBot ℚ)⟩ : Tensor (WithBot ℚ))
        (⟨[2], fun _ => (0 : ℤ)⟩ : Tensor ℤ) 0 (some 1))
        (defaultTensor ℚ, defaultTensor ℤ)).2.data p = 0) :=
  ⟨by decide, claim_C7_argmax_stub _ _ _ _ (by decide)⟩

/-- C8: for a source array of rank r and a negative axis dim with
-r ≤ dim < 0, each of grouped sum, grouped max and grouped softmax returns
the same result as the call with the normalized non-negative axis dim + r,
for every index array and group-count argument. -/
theorem claim_C8_negative_dim (src : Tensor ℝ) (index : Tensor ℤ) (ds : Option ℤ)
    (dim : ℤ) (h1 : -(src.rank : ℤ) ≤ dim) (h2 : dim < 0) :
    scatter_sum src index dim ds = scatter_sum src index (dim + (src.rank : ℤ)) ds ∧
    scatter_max (src.map (fun x => (x : WithBot ℝ))) index dim ds =
      scatter_max (src.map (fun x => (x : WithBot ℝ))) index (dim + (src.rank : ℤ)) ds ∧
    scatter_softmax src index dim ds = scatter_softmax src index (dim + (src.rank : ℤ)) ds := by
  have hnorm : ∀ r : ℕ, r = src.rank → normDim r dim = normDim r (dim + (src.rank : ℤ)) := by
    intro r hr
    rw [hr]
    unfold normDim
    rw [show dim + (src.rank : ℤ) = dim + (src.rank : ℤ) * 1 by ring,
      Int.add_mul_emod_self_left]
  refine ⟨?_, ?_, ?_⟩
  · unfold scatter_sum
    rw [hnorm src.rank rfl]
  · unfold scatter_max
    rw [hnorm (src.map (fun x => (x : WithBot ℝ))).rank rfl]
  · unfold scatter_softmax
    rw [hnorm src.rank rfl]

theorem claim_C8_negative_dim_witness :
    -(((⟨[2], fun _ => (0 : ℝ)⟩ : Tensor ℝ)).rank : ℤ) ≤ -1 ∧ (-1 : ℤ) < 0 ∧
    (scatter_sum (⟨[2], fun _ => (0 : ℝ)⟩ : Tensor ℝ) (⟨[2], fun _ => (0 : ℤ)⟩ : Tensor ℤ)
        (-1) none =
      scatter_sum (⟨[2], fun _ => (0 : ℝ)⟩ : Tensor ℝ) (⟨[2], fun _ => (0 : ℤ)⟩ : Tensor ℤ)
        (-1 + (((⟨[2], fun _ => (0 : ℝ)⟩ : Tensor ℝ)).rank : ℤ)) none ∧
    scatter_max ((⟨[2], fun _ => (0 : ℝ)⟩ : Tensor ℝ).map (fun x => (x : WithBot ℝ)))
        (⟨[2], fun _ => (0 : ℤ)⟩ : Tensor ℤ) (-1) none =
      scatter_max ((⟨[2], fun _ => (0 : ℝ)⟩ : Tensor ℝ).map (fun x => (x : WithBot ℝ)))
        (⟨[2], fun _ => (0 : ℤ)⟩ : Tensor ℤ)
        (-1 + (((⟨[2], fun _ => (0 : ℝ)⟩ : Tensor ℝ)).rank : ℤ)) none ∧
    scatter_softmax (⟨[2], fun _ => (0 : ℝ)⟩ : Tensor ℝ) (⟨[2], fun _ => (0 : ℤ)⟩ : Tensor ℤ)
        (-1) none =
      scatter_softmax (⟨[2], fun _ => (0 : ℝ)⟩ : Tensor ℝ) (⟨[2], fun _ => (0 : ℤ)⟩ : Tensor ℤ)
        (-1 + (((⟨[2], fun _ => (0 : ℝ)⟩ : Tensor ℝ)).rank : ℤ)) none) :=
  ⟨by decide, by decide, claim_C8_negative_dim _ _ _ _ (by decide) (by decide)⟩

/-- C10: when the index array has zero elements and the group count is
omitted, each of grouped sum, grouped max and grouped softmax fails with
the synchronous error raised while inferring the group count (max of an
empty tensor), rather than returning a result. -/
theorem claim_C10_empty_index_error (srcQ : Tensor ℚ) (srcW : Tensor (WithBot ℚ))
    (srcR : Tensor ℝ) (index : Tensor ℤ) (dim : ℤ) (h : index.numel = 0) :
    scatter_sum srcQ index dim none = .error .emptyMax ∧
    scatter_max srcW index dim none = .error .emptyMax ∧
    scatter_softmax srcR index dim none = .error .emptyMax := by
  refine ⟨?_, ?_, ?_⟩
  · unfold scatter_sum
    exact scatter_sum_core_err_res srcQ (resolve_none_error h)
  · unfold scatter_max
    exact scatter_max_core_err_res srcW (resolve_none_error h)
  · unfold scatter_softmax
    exact scatter_softmax_core_err_res srcR (resolve_none_error h)

theorem claim_C10_empty_index_error_witness :
    (⟨[0], fun _ => (0 : ℤ)⟩ : Tensor ℤ).numel = 0 ∧
    (scatter_sum (⟨[3], fun _ => (1 : ℚ)⟩ : Tensor ℚ) (⟨[0], fun _ => (0 : ℤ)⟩ : Tensor ℤ)
        0 none = .error .emptyMax ∧
    scatter_max (⟨[3], fun _ => ((1 : ℚ) : WithBot ℚ)⟩ : Tensor (WithBot ℚ))
        (⟨[0], fun _ => (0 : ℤ)⟩ : Tensor ℤ) 0 none = .error .emptyMax ∧
    scatter_softmax (⟨[3], fun _ => (1 : ℝ)⟩ : Tensor ℝ) (⟨[0], fun _ => (0 : ℤ)⟩ : Tensor ℤ)
        0 none = .error .emptyMax) :=
  ⟨by decide, claim_C10_empty_index_error _ _ _ _ _ (by decide)⟩

end SDPV

namespace SDPV

/-- The lower-rank branch of index expansion: when the index rank differs
from the source rank, the index is reshaped to the ones-except-axis shape
and broadcast to the source shape with the axis size replaced by the index
element count. -/
theorem expand_index_core_lower_eq {α : Type} (index : Tensor ℤ) (src : Tensor α)
    {d : ℕ} (hd : d < src.rank) (hrank : ¬index.rank = src.rank) :
    _expand_index_core index src d =
      (index.view ((List.replicate src.rank 1).set d index.numel)).expand
        (src.shape.set d index.numel) := by
  unfold _expand_index_core
  rw [if_neg hrank]
  have hget : (((List.replicate src.rank 1).set d index.numel)).getD d 1 = index.numel := by
    apply getD_set_self
    rw [List.length_replicate]
    exact hd
  show (index.view ((List.replicate src.rank 1).set d index.numel)).expand
      (src.shape.set d ((((List.replicate src.rank 1).set d index.numel)).getD d 1)) = _
  rw [hget]

/-- C5: for an index array of rank at most the source rank whose sizes are
compatible with the source (broadcastable when the ranks are equal; a lone
meaningful dimension of the source axis length when the rank is lower),
index expansion succeeds and the expanded index has exactly the source
shape in every dimension, including the reduction axis. -/
theorem claim_C5_expand_index_shape (src : Tensor ℚ) (index : Tensor ℤ) (dim : ℤ)
    (hd : normDim src.rank dim < src.rank)
    (hcase : (index.rank = src.rank ∧ canExpand index.shape src.shape = true) ∨
      (index.rank < src.rank ∧ (index.shape.filter (fun s => s != 1)).length ≤ 1 ∧
        index.numel = src.shape.getD (normDim src.rank dim) 0)) :
    isOkE (_expand_index index src dim) = true ∧
    (okOr (_expand_index index src dim) (defaultTensor ℤ)).shape = src.shape := by
  unfold _expand_index
  rcases hcase with ⟨hrank, hcan⟩ | ⟨hrank, _, hnum⟩
  · unfold _expand_index_core
    rw [if_pos hrank]
    unfold Tensor.expand
    rw [if_pos hcan]
    exact ⟨rfl, rfl⟩
  · rw [expand_index_core_lower_eq index src hd (Nat.ne_of_lt hrank)]
    have hcan2 : canExpand
        (index.view ((List.replicate src.rank 1).set (normDim src.rank dim)
          index.numel)).shape
        (src.shape.set (normDim src.rank dim) index.numel) = true :=
      canExpand_ones_set rfl hd
    unfold Tensor.expand
    rw [if_pos hcan2]
    refine ⟨rfl, ?_⟩
    show src.shape.set (normDim src.rank dim) index.numel = src.shape
    rw [hnum]
    exact set_getD_self _ _ _ hd

theorem claim_C5_expand_index_shape_witness :
    normDim (⟨[2, 4, 3], fun _ => (0 : ℚ)⟩ : Tensor ℚ).rank 1 <
      (⟨[2, 4, 3], fun _ => (0 : ℚ)⟩ : Tensor ℚ).rank ∧
    ((((⟨[4], fun _ => (0 : ℤ)⟩ : Tensor ℤ)).rank =
        (⟨[2, 4, 3], fun _ => (0 : ℚ)⟩ : Tensor ℚ).rank ∧
      canExpand (⟨[4], fun _ => (0 : ℤ)⟩ : Tensor ℤ).shape
        (⟨[2, 4, 3], fun _ => (0 : ℚ)⟩ : Tensor ℚ).shape = true) ∨
      (((⟨[4], fun _ => (0 : ℤ)⟩ : Tensor ℤ)).rank <
          (⟨[2, 4, 3], fun _ => (0 : ℚ)⟩ : Tensor ℚ).rank ∧
        (((⟨[4], fun _ => (0 : ℤ)⟩ : Tensor ℤ)).shape.filter (fun s => s != 1)).length ≤ 1 ∧
        ((⟨[4], fun _ => (0 : ℤ)⟩ : Tensor ℤ)).numel =
          (⟨[2, 4, 3], fun _ => (0 : ℚ)⟩ : Tensor ℚ).shape.getD
            (normDim (⟨[2, 4, 3], fun _ => (0 : ℚ)⟩ : Tensor ℚ).rank 1) 0)) ∧
    (isOkE (_expand_index (⟨[4], fun _ => (0 : ℤ)⟩ : Tensor ℤ)
        (⟨[2, 4, 3], fun _ => (0 : ℚ)⟩ : Tensor ℚ) 1) = true ∧
      (okOr (_expand_index (⟨[4], fun _ => (0 : ℤ)⟩ : Tensor ℤ)
        (⟨[2, 4, 3], fun _ => (0 : ℚ)⟩ : Tensor ℚ) 1) (defaultTensor ℤ)).shape =
        (⟨[2, 4, 3], fun _ => (0 : ℚ)⟩ : Tensor ℚ).shape) :=
  ⟨by decide, Or.inr (by decide),
    claim_C5_expand_index_shape _ _ _ (by decide) (Or.inr (by decide))⟩

theorem resolve_none_cons {index : Tensor ℤ} {v : ℤ} {vs : List ℤ}
    (hv : (allCoords index.shape).map index.data = v :: vs) :
    resolveDimSize index none = .ok (vs.foldl max v + 1) := by
  unfold resolveDimSize
  rw [hv]

/-- C6: whenever grouped sum or grouped max succeeds, the output shape is
the source shape with the reduction axis resized to the group count, where
the group count is the supplied argument when one is given and the maximum
index value plus one when it is omitted. -/
theorem claim_C6_output_shape (srcQ : Tensor ℚ) (srcW : Tensor (WithBot ℚ))
    (index : Tensor ℤ) (dim : ℤ) (ds : Option ℤ)
    (hs : isOkE (scatter_sum srcQ index dim ds) = true)
    (hm : isOkE (scatter_max srcW index dim ds) = true) :
    isOkE (resolveDimSize index ds) = true ∧
    (okOr (scatter_sum srcQ index dim ds) (defaultTensor ℚ)).shape =
      srcQ.shape.set (normDim srcQ.rank dim) (okOr (resolveDimSize index ds) 0).toNat ∧
    (okOr (scatter_max srcW index dim ds) (defaultTensor ℚ, defaultTensor ℤ)).1.shape =
      srcW.shape.set (normDim srcW.rank dim) (okOr (resolveDimSize index ds) 0).toNat ∧
    (∀ n : ℤ, ds = some n → okOr (resolveDimSize index ds) 0 = n) ∧
    (ds = none →
      (okOr (resolveDimSize index ds) 0) - 1 ∈ (allCoords index.shape).map index.data ∧
      ∀ w ∈ (allCoords index.shape).map index.data,
        w ≤ (okOr (resolveDimSize index ds) 0) - 1) := by
  cases hr : resolveDimSize index ds with
  | error e =>
    unfold scatter_sum at hs
    rw [scatter_sum_core_err_res srcQ hr] at hs
    simp [isOkE] at hs
  | ok G =>
    refine ⟨rfl, ?_, ?_, ?_, ?_⟩
    · unfold scatter_sum at hs ⊢
      cases hE : _expand_index_core index srcQ (normDim srcQ.rank dim) with
      | error e =>
        rw [scatter_sum_core_err_exp srcQ hr hE] at hs
        simp [isOkE] at hs
      | ok iexp =>
        rw [scatter_sum_core_eq srcQ hr hE]
        exact scatter_add_shape _ _ _ _
    · unfold scatter_max at hm ⊢
      cases hE : _expand_index_core index srcW (normDim srcW.rank dim) with
      | error e =>
        rw [scatter_max_core_err_exp srcW hr hE] at hm
        simp [isOkE] at hm
      | ok iexp =>
        rw [scatter_max_core_eq srcW hr hE]
        exact scatter_amax_shape
          ⟨srcW.shape.set (normDim srcW.rank dim) G.toNat, fun _ => ⊥⟩
          (normDim srcW.rank dim) iexp srcW
    · intro n hn
      subst hn
      rw [resolve_some] at hr
      injection hr with h2
      exact h2.symm
    · intro hn
      subst hn
      cases hv : (allCoords index.shape).map index.data with
      | nil =>
        have herr : resolveDimSize index none = .error .emptyMax := by
          unfold resolveDimSize
          rw [hv]
        rw [herr] at hr
        exact absurd hr (by simp)
      | cons v vs =>
        rw [resolve_none_cons hv] at hr
        injection hr with h2
        constructor
        · rw [← h2]
          simp only [okOr, add_sub_cancel_right]
          rcases foldl_max_mem vs v with hc | hc
          · rw [hc]
            exact List.mem_cons_self v vs
          · exact List.mem_cons_of_mem v hc
        · intro w hw
          rw [← h2]
          simp only [okOr, add_sub_cancel_right]
          rcases List.mem_cons.mp hw with rfl | hw2
          · exact le_foldl_max vs w
          · exact mem_le_foldl_max hw2 v

end SDPV

namespace SDPV

theorem claim_C6_output_shape_witness :
    isOkE (scatter_sum (⟨[4], fun _ => (1 : ℚ)⟩ : Tensor ℚ)
      (⟨[4], fun _ => (0 : ℤ)⟩ : Tensor ℤ) 0 none) = true ∧
    isOkE (scatter_max (⟨[4], fun _ => ((1 : ℚ) : WithBot ℚ)⟩ : Tensor (WithBot ℚ))
      (⟨[4], fun _ => (0 : ℤ)⟩ : Tensor ℤ) 0 none) = true ∧
    (isOkE (resolveDimSize (⟨[4], fun _ => (0 : ℤ)⟩ : Tensor ℤ) none) = true ∧
    (okOr (scatter_sum (⟨[4], fun _ => (1 : ℚ)⟩ : Tensor ℚ)
        (⟨[4], fun _ => (0 : ℤ)⟩ : Tensor ℤ) 0 none) (defaultTensor ℚ)).shape =
      (⟨[4], fun _ => (1 : ℚ)⟩ : Tensor ℚ).shape.set
        (normDim (⟨[4], fun _ => (1 : ℚ)⟩ : Tensor ℚ).rank 0)
        (okOr (resolveDimSize (⟨[4], fun _ => (0 : ℤ)⟩ : Tensor ℤ) none) 0).toNat ∧
    (okOr (scatter_max (⟨[4], fun _ => ((1 : ℚ) : WithBot ℚ)⟩ : Tensor (WithBot ℚ))
        (⟨[4], fun _ => (0 : ℤ)⟩ : Tensor ℤ) 0 none)
        (defaultTensor ℚ, defaultTensor ℤ)).1.shape =
      (⟨[4], fun _ => ((1 : ℚ) : WithBot ℚ)⟩ : Tensor (WithBot ℚ)).shape.set
        (normDim (⟨[4], fun _ => ((1 : ℚ) : WithBot ℚ)⟩ : Tensor (WithBot ℚ)).rank 0)
        (okOr (resolveDimSize (⟨[4], fun _ => (0 : ℤ)⟩ : Tensor ℤ) none) 0).toNat ∧
    (∀ n : ℤ, (none : Option ℤ) = some n →
      okOr (resolveDimSize (⟨[4], fun _ => (0 : ℤ)⟩ : Tensor ℤ) none) 0 = n) ∧
    ((none : Option ℤ) = none →
      (okOr (resolveDimSize (⟨[4], fun _ => (0 : ℤ)⟩ : Tensor ℤ) none) 0) - 1 ∈
        (allCoords (⟨[4], fun _ => (0 : ℤ)⟩ : Tensor ℤ).shape).map
          (⟨[4], fun _ => (0 : ℤ)⟩ : Tensor ℤ).data ∧
      ∀ w ∈ (allCoords (⟨[4], fun _ => (0 : ℤ)⟩ : Tensor ℤ).shape).map
          (⟨[4], fun _ => (0 : ℤ)⟩ : Tensor ℤ).data,
        w ≤ (okOr (resolveDimSize (⟨[4], fun _ => (0 : ℤ)⟩ : Tensor ℤ) none) 0) - 1)) :=
  ⟨by decide, by decide, claim_C6_output_shape _ _ _ _ _ (by decide) (by decide)⟩

end SDPV

namespace SDPV

theorem set_mem_allCoords {sh : List ℕ} {d : ℕ} (hd : d < sh.length) {p₀ : List ℕ}
    (hlen : p₀.length = sh.length)
    (hoff : ∀ i < sh.length, i ≠ d → p₀.getD i 0 < sh.getD i 0)
    {j : ℕ} (hj : j < sh.getD d 0) : p₀.set d j ∈ allCoords sh := by
  have hdp : d < p₀.length := by omega
  refine mem_allCoords_getD.mpr ⟨by rw [List.length_set]; exact hlen, ?_⟩
  intro i hi
  by_cases hid : i = d
  · subst hid
    rw [getD_set_self _ _ _ _ hdp]
    exact hj
  · rw [getD_set_ne _ _ _ (fun hc => hid hc.symm)]
    exact hoff i hi hid

/-- When all index values lie in the valid non-negative range, the natural
truncation of an expanded index value agrees with the value itself, so the
two descriptions of a group coincide. -/
theorem group_filter_eq {α : Type} {index : Tensor ℤ} (src : Tensor α) {d : ℕ}
    {iexp : Tensor ℤ} (hd : d < src.rank)
    (hEc : _expand_index_core index src d = .ok iexp)
    (hsh : iexp.shape = src.shape) {G : ℕ}
    (hbd : ∀ q ∈ allCoords index.shape, 0 ≤ index.data q ∧ index.data q < (G : ℤ))
    {p₀ : List ℕ} (hlen : p₀.length = src.shape.length)
    (hoff : ∀ i < src.shape.length, i ≠ d → p₀.getD i 0 < src.shape.getD i 0) :
    (List.range (src.shape.getD d 0)).filter
      (fun j => (iexp.data (p₀.set d j)).toNat = p₀.getD d 0) =
    (List.range (src.shape.getD d 0)).filter
      (fun j => iexp.data (p₀.set d j) = (p₀.getD d 0 : ℤ)) := by
  apply List.filter_congr
  intro j hj
  have hmem : p₀.set d j ∈ allCoords iexp.shape := by
    rw [hsh]
    exact set_mem_allCoords hd hlen hoff (List.mem_range.mp hj)
  rcases expand_index_values hd hEc _ hmem with ⟨q, hq, hval⟩
  have h0 : 0 ≤ iexp.data (p₀.set d j) := by
    rw [hval]
    exact (hbd q hq).1
  exact decide_eq_decide.mpr (by omega)

/-- C1: with all index values in the valid range, grouped sum at every
output position holds the literal sum of exactly those source elements
along the reduction axis whose expanded index value equals the position's
group id, the parallel coordinates being fixed; a group with no
contributing elements holds exactly zero. -/
theorem claim_C1_grouped_sum {α : Type} [AddCommMonoid α] (src : Tensor α)
    (index : Tensor ℤ) (dim : ℤ) (G : ℕ)
    (hd : normDim src.rank dim < src.rank)
    (hE : isOkE (_expand_index index src dim) = true)
    (hsh : (okOr (_expand_index index src dim) (defaultTensor ℤ)).shape = src.shape)
    (hbd : ∀ q ∈ allCoords index.shape, 0 ≤ index.data q ∧ index.data q < (G : ℤ)) :
    isOkE (scatter_sum src index dim (some (G : ℤ))) = true ∧
    ∀ p ∈ allCoords (src.shape.set (normDim src.rank dim) G),
      (okOr (scatter_sum src index dim (some (G : ℤ))) (defaultTensor α)).data p =
        (((List.range (src.shape.getD (normDim src.rank dim) 0)).filter
          (fun j => (okOr (_expand_index index src dim) (defaultTensor ℤ)).data
            (p.set (normDim src.rank dim) j) = (p.getD (normDim src.rank dim) 0 : ℤ))).map
          (fun j => src.data (p.set (normDim src.rank dim) j))).sum ∧
      ((((List.range (src.shape.getD (normDim src.rank dim) 0)).filter
          (fun j => (okOr (_expand_index index src dim) (defaultTensor ℤ)).data
            (p.set (normDim src.rank dim) j) = (p.getD (normDim src.rank dim) 0 : ℤ))) = []) →
        (okOr (scatter_sum src index dim (some (G : ℤ))) (defaultTensor α)).data p = 0) := by
  have hE' : _expand_index index src dim =
      .ok (okOr (_expand_index index src dim) (defaultTensor ℤ)) := okOr_spec _ hE
  have hEc : _expand_index_core index src (normDim src.rank dim) =
      .ok (okOr (_expand_index index src dim) (defaultTensor ℤ)) := hE'
  have hok := scatter_sum_core_eq src (resolve_some index (G : ℤ)) hEc
  have hval : okOr (scatter_sum src index dim (some (G : ℤ))) (defaultTensor α) =
      Tensor.scatter_add
        ⟨src.shape.set (normDim src.rank dim) ((G : ℤ)).toNat, fun _ => 0⟩
        (normDim src.rank dim) (okOr (_expand_index index src dim) (defaultTensor ℤ)) src := by
    unfold scatter_sum
    rw [hok]
    rfl
  constructor
  · unfold scatter_sum
    rw [hok]
    rfl
  · intro p hp
    rcases mem_allCoords_getD.mp hp with ⟨hplen, hpbd⟩
    have hlen : p.length = src.shape.length := by
      rw [hplen, List.length_set]
    have hoff : ∀ i < src.shape.length, i ≠ normDim src.rank dim →
        p.getD i 0 < src.shape.getD i 0 := by
      intro i hi hid
      have h1 := hpbd i (by rw [List.length_set]; exact hi)
      rw [getD_set_ne _ _ _ (fun hc => hid hc.symm)] at h1
      exact h1
    have hshlen : normDim src.rank dim <
        (okOr (_expand_index index src dim) (defaultTensor ℤ)).shape.length := by
      rw [hsh]
      exact hd
    have hgrp := scatter_add_group
      ⟨src.shape.set (normDim src.rank dim) ((G : ℤ)).toNat, fun _ => 0⟩
      (normDim src.rank dim) (okOr (_expand_index index src dim) (defaultTensor ℤ)) src p
      hshlen (by rw [hsh]; exact hlen)
      (by
        intro i hi hid
        rw [hsh] at hi ⊢
        exact hoff i hi hid)
    rw [hval, hgrp, hsh]
    rw [group_filter_eq src hd hEc hsh hbd hlen hoff]
    constructor
    · show (0 : α) + _ = _
      rw [zero_add]
    · intro hnil
      rw [hnil]
      show (0 : α) + ([].map _).sum = 0
      simp

end SDPV

namespace SDPV

theorem claim_C1_grouped_sum_witness :
    normDim (⟨[4], fun p => ([(1 : ℤ), 2, 3, 4].getD (p.headD 0) 0)⟩ : Tensor ℤ).rank 0 <
      (⟨[4], fun p => ([(1 : ℤ), 2, 3, 4].getD (p.headD 0) 0)⟩ : Tensor ℤ).rank ∧
    isOkE (_expand_index (⟨[4], fun p => if p.headD 0 ≤ 1 then (0 : ℤ) else 1⟩ : Tensor ℤ)
      (⟨[4], fun p => ([(1 : ℤ), 2, 3, 4].getD (p.headD 0) 0)⟩ : Tensor ℤ) 0) = true ∧
    (okOr (_expand_index (⟨[4], fun p => if p.headD 0 ≤ 1 then (0 : ℤ) else 1⟩ : Tensor ℤ)
      (⟨[4], fun p => ([(1 : ℤ), 2, 3, 4].getD (p.headD 0) 0)⟩ : Tensor ℤ) 0)
      (defaultTensor ℤ)).shape =
      (⟨[4], fun p => ([(1 : ℤ), 2, 3, 4].getD (p.headD 0) 0)⟩ : Tensor ℤ).shape ∧
    (∀ q ∈ allCoords (⟨[4], fun p => if p.headD 0 ≤ 1 then (0 : ℤ) else 1⟩ : Tensor ℤ).shape,
      0 ≤ (⟨[4], fun p => if p.headD 0 ≤ 1 then (0 : ℤ) else 1⟩ : Tensor ℤ).data q ∧
      (⟨[4], fun p => if p.headD 0 ≤ 1 then (0 : ℤ) else 1⟩ : Tensor ℤ).data q < ((2 : ℕ) : ℤ)) ∧
    (isOkE (scatter_sum (⟨[4], fun p => ([(1 : ℤ), 2, 3, 4].getD (p.headD 0) 0)⟩ : Tensor ℤ)
      (⟨[4], fun p => if p.headD 0 ≤ 1 then (0 : ℤ) else 1⟩ : Tensor ℤ) 0
      (some ((2 : ℕ) : ℤ))) = true ∧
    ∀ p ∈ allCoords ((⟨[4], fun p => ([(1 : ℤ), 2, 3, 4].getD (p.headD 0) 0)⟩ :
        Tensor ℤ).shape.set
        (normDim (⟨[4], fun p => ([(1 : ℤ), 2, 3, 4].getD (p.headD 0) 0)⟩ :
          Tensor ℤ).rank 0) 2),
      (okOr (scatter_sum (⟨[4], fun p => ([(1 : ℤ), 2, 3, 4].getD (p.headD 0) 0)⟩ : Tensor ℤ)
        (⟨[4], fun p => if p.headD 0 ≤ 1 then (0 : ℤ) else 1⟩ : Tensor ℤ) 0
        (some ((2 : ℕ) : ℤ))) (defaultTensor ℤ)).data p =
        (((List.range ((⟨[4], fun p => ([(1 : ℤ), 2, 3, 4].getD (p.headD 0) 0)⟩ :
            Tensor ℤ).shape.getD
            (normDim (⟨[4], fun p => ([(1 : ℤ), 2, 3, 4].getD (p.headD 0) 0)⟩ :
              Tensor ℤ).rank 0) 0)).filter
          (fun j => (okOr (_expand_index
              (⟨[4], fun p => if p.headD 0 ≤ 1 then (0 : ℤ) else 1⟩ : Tensor ℤ)
              (⟨[4], fun p => ([(1 : ℤ), 2, 3, 4].getD (p.headD 0) 0)⟩ : Tensor ℤ) 0)
              (defaultTensor ℤ)).data
            (p.set (normDim (⟨[4], fun p => ([(1 : ℤ), 2, 3, 4].getD (p.headD 0) 0)⟩ :
              Tensor ℤ).rank 0) j) =
            ((p.getD (normDim (⟨[4], fun p => ([(1 : ℤ), 2, 3, 4].getD (p.headD 0) 0)⟩ :
              Tensor ℤ).rank 0) 0 : ℕ) : ℤ))).map
          (fun j => (⟨[4], fun p => ([(1 : ℤ), 2, 3, 4].getD (p.headD 0) 0)⟩ :
            Tensor ℤ).data
            (p.set (normDim (⟨[4], fun p => ([(1 : ℤ), 2, 3, 4].getD (p.headD 0) 0)⟩ :
              Tensor ℤ).rank 0) j))).sum ∧
      ((((List.range ((⟨[4], fun p => ([(1 : ℤ), 2, 3, 4].getD (p.headD 0) 0)⟩ :
            Tensor ℤ).shape.getD
            (normDim (⟨[4], fun p => ([(1 : ℤ), 2, 3, 4].getD (p.headD 0) 0)⟩ :
              Tensor ℤ).rank 0) 0)).filter
          (fun j => (okOr (_expand_index
              (⟨[4], fun p => if p.headD 0 ≤ 1 then (0 : ℤ) else 1⟩ : Tensor ℤ)
              (⟨[4], fun p => ([(1 : ℤ), 2, 3, 4].getD (p.headD 0) 0)⟩ : Tensor ℤ) 0)
              (defaultTensor ℤ)).data
            (p.set (normDim (⟨[4], fun p => ([(1 : ℤ), 2, 3, 4].getD (p.headD 0) 0)⟩ :
              Tensor ℤ).rank 0) j) =
            ((p.getD (normDim (⟨[4], fun p => ([(1 : ℤ), 2, 3, 4].getD (p.headD 0) 0)⟩ :
              Tensor ℤ).rank 0) 0 : ℕ) : ℤ))) = []) →
        (okOr (scatter_sum (⟨[4], fun p => ([(1 : ℤ), 2, 3, 4].getD (p.headD 0) 0)⟩ :
          Tensor ℤ)
          (⟨[4], fun p => if p.headD 0 ≤ 1 then (0 : ℤ) else 1⟩ : Tensor ℤ) 0
          (some ((2 : ℕ) : ℤ))) (defaultTensor ℤ)).data p = 0)) :=
  ⟨by decide, by decide, by decide, by decide,
    claim_C1_grouped_sum _ _ _ _ (by decide) (by decide) (by decide) (by decide)⟩

end SDPV

namespace SDPV

/-- Membership-level version of the group description transfer: with index
values in the valid range, the truncated and untruncated conditions that
select a group agree at each axis position. -/
theorem group_cond_iff {α : Type} {index : Tensor ℤ} (src : Tensor α) {d : ℕ}
    {iexp : Tensor ℤ} (hd : d < src.rank)
    (hEc : _expand_index_core index src d = .ok iexp)
    (hsh : iexp.shape = src.shape) {G : ℕ}
    (hbd : ∀ q ∈ allCoords index.shape, 0 ≤ index.data q ∧ index.data q < (G : ℤ))
    {p₀ : List ℕ} (hlen : p₀.length = src.shape.length)
    (hoff : ∀ i < src.shape.length, i ≠ d → p₀.getD i 0 < src.shape.getD i 0)
    {j : ℕ} (hj : j < src.shape.getD d 0) :
    (iexp.data (p₀.set d j)).toNat = p₀.getD d 0 ↔
      iexp.data (p₀.set d j) = (p₀.getD d 0 : ℤ) := by
  have hmem : p₀.set d j ∈ allCoords iexp.shape := by
    rw [hsh]
    exact set_mem_allCoords hd hlen hoff hj
  rcases expand_index_values hd hEc _ hmem with ⟨q, hq, hval⟩
  have h0 : 0 ≤ iexp.data (p₀.set d j) := by
    rw [hval]
    exact (hbd q hq).1
  omega

/-- C2: with all index values in the valid range, the first output of
grouped max at every output position equals the maximum of the source
elements mapped to that position's group (it is one of them and dominates
all of them), and a group with no contributing elements holds exactly zero
rather than negative infinity. -/
theorem claim_C2_grouped_max {α : Type} [LinearOrder α] [Zero α] (src : Tensor α)
    (index : Tensor ℤ) (dim : ℤ) (G : ℕ)
    (hd : normDim src.rank dim < src.rank)
    (hE : isOkE (_expand_index index (src.map (fun x => (x : WithBot α))) dim) = true)
    (hsh : (okOr (_expand_index index (src.map (fun x => (x : WithBot α))) dim)
      (defaultTensor ℤ)).shape = src.shape)
    (hbd : ∀ q ∈ allCoords index.shape, 0 ≤ index.data q ∧ index.data q < (G : ℤ)) :
    isOkE (scatter_max (src.map (fun x => (x : WithBot α))) index dim (some (G : ℤ))) =
      true ∧
    ∀ p ∈ allCoords (src.shape.set (normDim src.rank dim) G),
      (((List.range (src.shape.getD (normDim src.rank dim) 0)).filter
          (fun j => (okOr (_expand_index index (src.map (fun x => (x : WithBot α))) dim)
            (defaultTensor ℤ)).data (p.set (normDim src.rank dim) j) =
            (p.getD (normDim src.rank dim) 0 : ℤ))) ≠ [] →
        (∃ j ∈ (List.range (src.shape.getD (normDim src.rank dim) 0)).filter
            (fun j => (okOr (_expand_index index (src.map (fun x => (x : WithBot α))) dim)
              (defaultTensor ℤ)).data (p.set (normDim src.rank dim) j) =
              (p.getD (normDim src.rank dim) 0 : ℤ)),
          (okOr (scatter_max (src.map (fun x => (x : WithBot α))) index dim (some (G : ℤ)))
            (defaultTensor α, defaultTensor ℤ)).1.data p =
            src.data (p.set (normDim src.rank dim) j)) ∧
        ∀ j ∈ (List.range (src.shape.getD (normDim src.rank dim) 0)).filter
            (fun j => (okOr (_expand_index index (src.map (fun x => (x : WithBot α))) dim)
              (defaultTensor ℤ)).data (p.set (normDim src.rank dim) j) =
              (p.getD (normDim src.rank dim) 0 : ℤ)),
          src.data (p.set (normDim src.rank dim) j) ≤
            (okOr (scatter_max (src.map (fun x => (x : WithBot α))) index dim
              (some (G : ℤ))) (defaultTensor α, defaultTensor ℤ)).1.data p) ∧
      (((List.range (src.shape.getD (normDim src.rank dim) 0)).filter
          (fun j => (okOr (_expand_index index (src.map (fun x => (x : WithBot α))) dim)
            (defaultTensor ℤ)).data (p.set (normDim src.rank dim) j) =
            (p.getD (normDim src.rank dim) 0 : ℤ))) = [] →
        (okOr (scatter_max (src.map (fun x => (x : WithBot α))) index dim (some (G : ℤ)))
          (defaultTensor α, defaultTensor ℤ)).1.data p = 0) := by
  have hE' : _expand_index index (src.map (fun x => (x : WithBot α))) dim =
      .ok (okOr (_expand_index index (src.map (fun x => (x : WithBot α))) dim)
        (defaultTensor ℤ)) := okOr_spec _ hE
  have hEc : _expand_index_core index (src.map (fun x => (x : WithBot α)))
      (normDim (src.map (fun x => (x : WithBot α))).rank dim) =
      .ok (okOr (_expand_index index (src.map (fun x => (x : WithBot α))) dim)
        (defaultTensor ℤ)) := hE'
  have hok := scatter_max_core_eq (src.map (fun x => (x : WithBot α)))
    (resolve_some index (G : ℤ)) hEc
  have hval : (okOr (scatter_max (src.map (fun x => (x : WithBot α))) index dim
      (some (G : ℤ))) (defaultTensor α, defaultTensor ℤ)).1 =
      (Tensor.scatter_reduce_amax
        ⟨(src.map (fun x => (x : WithBot α))).shape.set
          (normDim (src.map (fun x => (x : WithBot α))).rank dim) ((G : ℤ)).toNat,
          fun _ => ⊥⟩
        (normDim (src.map (fun x => (x : WithBot α))).rank dim)
        (okOr (_expand_index index (src.map (fun x => (x : WithBot α))) dim)
          (defaultTensor ℤ))
        (src.map (fun x => (x : WithBot α)))).map (fun v => v.unbot' 0) := by
    unfold scatter_max
    rw [hok]
    rfl
  constructor
  · unfold scatter_max
    rw [hok]
    rfl
  · intro p hp
    rcases mem_allCoords_getD.mp hp with ⟨hplen, hpbd⟩
    have hlen : p.length = src.shape.length := by
      rw [hplen, List.length_set]
    have hoff : ∀ i < src.shape.length, i ≠ normDim src.rank dim →
        p.getD i 0 < src.shape.getD i 0 := by
      intro i hi hid
      have h1 := hpbd i (by rw [List.length_set]; exact hi)
      rw [getD_set_ne _ _ _ (fun hc => hid hc.symm)] at h1
      exact h1
    have hchar := scatter_amax_char
      ⟨(src.map (fun x => (x : WithBot α))).shape.set
        (normDim (src.map (fun x => (x : WithBot α))).rank dim) ((G : ℤ)).toNat,
        fun _ => ⊥⟩
      (normDim (src.map (fun x => (x : WithBot α))).rank dim)
      (okOr (_expand_index index (src.map (fun x => (x : WithBot α))) dim)
        (defaultTensor ℤ))
      (src.map (fun x => (x : WithBot α))) p
      (by rw [hsh]; exact hd) (by rw [hsh]; exact hlen)
      (by
        intro i hi hid
        rw [hsh] at hi ⊢
        exact hoff i hi hid)
    rcases hchar with ⟨_, hub, hcases⟩
    have hdata : (okOr (scatter_max (src.map (fun x => (x : WithBot α))) index dim
        (some (G : ℤ))) (defaultTensor α, defaultTensor ℤ)).1.data p =
        ((Tensor.scatter_reduce_amax
          ⟨(src.map (fun x => (x : WithBot α))).shape.set
            (normDim (src.map (fun x => (x : WithBot α))).rank dim) ((G : ℤ)).toNat,
            fun _ => ⊥⟩
          (normDim (src.map (fun x => (x : WithBot α))).rank dim)
          (okOr (_expand_index index (src.map (fun x => (x : WithBot α))) dim)
            (defaultTensor ℤ))
          (src.map (fun x => (x : WithBot α)))).data p).unbot' 0 := by
      rw [hval]
      rfl
    constructor
    · intro hne
      rcases List.exists_mem_of_ne_nil _ hne with ⟨j₀, hj₀⟩
      rcases List.mem_filter.mp hj₀ with ⟨hj₀r, hj₀c⟩
      have hj₀n : j₀ < src.shape.getD (normDim src.rank dim) 0 := List.mem_range.mp hj₀r
      have hub₀ := hub j₀ (by rw [hsh]; exact hj₀n)
        ((group_cond_iff (src.map (fun x => (x : WithBot α))) hd hEc hsh hbd hlen hoff
          hj₀n).mpr (of_decide_eq_true hj₀c))
      rcases hcases with hbot | ⟨j₁, hj₁n, hj₁c, hj₁v⟩
      · exfalso
        rw [hbot] at hub₀
        have hbad : ((src.data (p.set (normDim (src.map (fun x => (x : WithBot α))).rank dim)
            j₀) : WithBot α)) ≤ ⊥ := hub₀
        simp at hbad
      · have hj₁n' : j₁ < src.shape.getD (normDim src.rank dim) 0 := by
          rw [hsh] at hj₁n
          exact hj₁n
        have hj₁c' := (group_cond_iff (src.map (fun x => (x : WithBot α))) hd hEc hsh hbd
          hlen hoff hj₁n').mp hj₁c
        constructor
        · refine ⟨j₁, List.mem_filter.mpr ⟨List.mem_range.mpr hj₁n', decide_eq_true hj₁c'⟩, ?_⟩
          rw [hdata, hj₁v]
          rfl
        · intro j hj
          rcases List.mem_filter.mp hj with ⟨hjr, hjc⟩
          have hjn : j < src.shape.getD (normDim src.rank dim) 0 := List.mem_range.mp hjr
          have hubj := hub j (by rw [hsh]; exact hjn)
            ((group_cond_iff (src.map (fun x => (x : WithBot α))) hd hEc hsh hbd hlen hoff
              hjn).mpr (of_decide_eq_true hjc))
          rw [hdata, hj₁v]
          rw [hj₁v] at hubj
          exact WithBot.coe_le_coe.mp hubj
    · intro hnil
      rcases hcases with hbot | ⟨j₁, hj₁n, hj₁c, hj₁v⟩
      · rw [hdata, hbot]
        rfl
      · exfalso
        have hj₁n' : j₁ < src.shape.getD (normDim src.rank dim) 0 := by
          rw [hsh] at hj₁n
          exact hj₁n
        have hj₁c' := (group_cond_iff (src.map (fun x => (x : WithBot α))) hd hEc hsh hbd
          hlen hoff hj₁n').mp hj₁c
        have : j₁ ∈ (List.range (src.shape.getD (normDim src.rank dim) 0)).filter
            (fun j => (okOr (_expand_index index (src.map (fun x => (x : WithBot α))) dim)
              (defaultTensor ℤ)).data (p.set (normDim src.rank dim) j) =
              (p.getD (normDim src.rank dim) 0 : ℤ)) :=
          List.mem_filter.mpr ⟨List.mem_range.mpr hj₁n', decide_eq_true hj₁c'⟩
        rw [hnil] at this
        simp at this

end SDPV

namespace SDPV

theorem claim_C2_grouped_max_witness :
    normDim (⟨[2], fun _ => (5 : ℤ)⟩ : Tensor ℤ).rank 0 < (⟨[2], fun _ => (5 : ℤ)⟩ : Tensor ℤ).rank ∧
    isOkE (_expand_index (⟨[2], fun _ => (0 : ℤ)⟩ : Tensor ℤ) ((⟨[2], fun _ => (5 : ℤ)⟩ : Tensor ℤ).map (fun x => (x : WithBot ℤ))) 0) = true ∧
    (okOr (_expand_index (⟨[2], fun _ => (0 : ℤ)⟩ : Tensor ℤ) ((⟨[2], fun _ => (5 : ℤ)⟩ : Tensor ℤ).map (fun x => (x : WithBot ℤ))) 0) (defaultTensor ℤ)).shape = (⟨[2], fun _ => (5 : ℤ)⟩ : Tensor ℤ).shape ∧
    (∀ q ∈ allCoords (⟨[2], fun _ => (0 : ℤ)⟩ : Tensor ℤ).shape, 0 ≤ (⟨[2], fun _ => (0 : ℤ)⟩ : Tensor ℤ).data q ∧ (⟨[2], fun _ => (0 : ℤ)⟩ : Tensor ℤ).data q < ((2 : ℕ) : ℤ)) ∧
    (isOkE (scatter_max ((⟨[2], fun _ => (5 : ℤ)⟩ : Tensor ℤ).map (fun x => (x : WithBot ℤ))) (⟨[2], fun _ => (0 : ℤ)⟩ : Tensor ℤ) 0 (some ((2 : ℕ) : ℤ))) = true ∧
    ∀ p ∈ allCoords ((⟨[2], fun _ => (5 : ℤ)⟩ : Tensor ℤ).shape.set (normDim (⟨[2], fun _ => (5 : ℤ)⟩ : Tensor ℤ).rank 0) 2),
      (((List.range ((⟨[2], fun _ => (5 : ℤ)⟩ : Tensor ℤ).shape.getD (normDim (⟨[2], fun _ => (5 : ℤ)⟩ : Tensor ℤ).rank 0) 0)).filter
      (fun j => (okOr (_expand_index (⟨[2], fun _ => (0 : ℤ)⟩ : Tensor ℤ) ((⟨[2], fun _ => (5 : ℤ)⟩ : Tensor ℤ).map (fun x => (x : WithBot ℤ))) 0) (defaultTensor ℤ)).data (p.set (normDim (⟨[2], fun _ => (5 : ℤ)⟩ : Tensor ℤ).rank 0) j) = (p.getD (normDim (⟨[2], fun _ => (5 : ℤ)⟩ : Tensor ℤ).rank 0) 0 : ℤ))) ≠ [] →
        (∃ j ∈ ((List.range ((⟨[2], fun _ => (5 : ℤ)⟩ : Tensor ℤ).shape.getD (normDim (⟨[2], fun _ => (5 : ℤ)⟩ : Tensor ℤ).rank 0) 0)).filter
      (fun j => (okOr (_expand_index (⟨[2], fun _ => (0 : ℤ)⟩ : Tensor ℤ) ((⟨[2], fun _ => (5 : ℤ)⟩ : Tensor ℤ).map (fun x => (x : WithBot ℤ))) 0) (defaultTensor ℤ)).data (p.set (normDim (⟨[2], fun _ => (5 : ℤ)⟩ : Tensor ℤ).rank 0) j) = (p.getD (normDim (⟨[2], fun _ => (5 : ℤ)⟩ : Tensor ℤ).rank 0) 0 : ℤ))),
          (okOr (scatter_max ((⟨[2], fun _ => (5 : ℤ)⟩ : Tensor ℤ).map (fun x => (x : WithBot ℤ))) (⟨[2], fun _ => (0 : ℤ)⟩ : Tensor ℤ) 0 (some ((2 : ℕ) : ℤ))) (defaultTensor ℤ, defaultTensor ℤ)).1.data p = (⟨[2], fun _ => (5 : ℤ)⟩ : Tensor ℤ).data (p.set (normDim (⟨[2], fun _ => (5 : ℤ)⟩ : Tensor ℤ).rank 0) j)) ∧
        ∀ j ∈ ((List.range ((⟨[2], fun _ => (5 : ℤ)⟩ : Tensor ℤ).shape.getD (normDim (⟨[2], fun _ => (5 : ℤ)⟩ : Tensor ℤ).rank 0) 0)).filter
      (fun j => (okOr (_expand_index (⟨[2], fun _ => (0 : ℤ)⟩ : Tensor ℤ) ((⟨[2], fun _ => (5 : ℤ)⟩ : Tensor ℤ).map (fun x => (x : WithBot ℤ))) 0) (defaultTensor ℤ)).data (p.set (normDim (⟨[2], fun _ => (5 : ℤ)⟩ : Tensor ℤ).rank 0) j) = (p.getD (normDim (⟨[2], fun _ => (5 : ℤ)⟩ : Tensor ℤ).rank 0) 0 : ℤ))),
          (⟨[2], fun _ => (5 : ℤ)⟩ : Tensor ℤ).data (p.set (normDim (⟨[2], fun _ => (5 : ℤ)⟩ : Tensor ℤ).rank 0) j) ≤ (okOr (scatter_max ((⟨[2], fun _ => (5 : ℤ)⟩ : Tensor ℤ).map (fun x => (x : WithBot ℤ))) (⟨[2], fun _ => (0 : ℤ)⟩ : Tensor ℤ) 0 (some ((2 : ℕ) : ℤ))) (defaultTensor ℤ, defaultTensor ℤ)).1.data p) ∧
      (((List.range ((⟨[2], fun _ => (5 : ℤ)⟩ : Tensor ℤ).shape.getD (normDim (⟨[2], fun _ => (5 : ℤ)⟩ : Tensor ℤ).rank 0) 0)).filter
      (fun j => (okOr (_expand_index (⟨[2], fun _ => (0 : ℤ)⟩ : Tensor ℤ) ((⟨[2], fun _ => (5 : ℤ)⟩ : Tensor ℤ).map (fun x => (x : WithBot ℤ))) 0) (defaultTensor ℤ)).data (p.set (normDim (⟨[2], fun _ => (5 : ℤ)⟩ : Tensor ℤ).rank 0) j) = (p.getD (normDim (⟨[2], fun _ => (5 : ℤ)⟩ : Tensor ℤ).rank 0) 0 : ℤ))) = [] →
        (okOr (scatter_max ((⟨[2], fun _ => (5 : ℤ)⟩ : Tensor ℤ).map (fun x => (x : WithBot ℤ))) (⟨[2], fun _ => (0 : ℤ)⟩ : Tensor ℤ) 0 (some ((2 : ℕ) : ℤ))) (defaultTensor ℤ, defaultTensor ℤ)).1.data p = 0)) :=
  ⟨by decide, by decide, by decide, by decide,
    claim_C2_grouped_max _ _ _ _ (by decide) (by decide) (by decide) (by decide)⟩

end SDPV

namespace SDPV

/-- C9: in grouped max, a group all of whose contributing source elements
are negative infinity is reported as zero in the first output, exactly as
an empty group is: the final replacement step rewrites every remaining
negative infinity to zero whether or not any element contributed. -/
theorem claim_C9_neg_inf_group_zero {α : Type} [LinearOrder α] [Zero α]
    (src : Tensor (WithBot α)) (index : Tensor ℤ) (dim : ℤ) (G : ℕ)
    (hd : normDim src.rank dim < src.rank)
    (hE : isOkE (_expand_index index src dim) = true)
    (hsh : (okOr (_expand_index index src dim) (defaultTensor ℤ)).shape = src.shape)
    (hbd : ∀ q ∈ allCoords index.shape, 0 ≤ index.data q ∧ index.data q < (G : ℤ)) :
    isOkE (scatter_max src index dim (some (G : ℤ))) = true ∧
    ∀ p ∈ allCoords (src.shape.set (normDim src.rank dim) G),
      (∀ j ∈ (List.range (src.shape.getD (normDim src.rank dim) 0)).filter
          (fun j => (okOr (_expand_index index src dim) (defaultTensor ℤ)).data
            (p.set (normDim src.rank dim) j) = (p.getD (normDim src.rank dim) 0 : ℤ)),
        src.data (p.set (normDim src.rank dim) j) = ⊥) →
      (okOr (scatter_max src index dim (some (G : ℤ)))
        (defaultTensor α, defaultTensor ℤ)).1.data p = 0 := by
  have hE' : _expand_index index src dim =
      .ok (okOr (_expand_index index src dim) (defaultTensor ℤ)) := okOr_spec _ hE
  have hEc : _expand_index_core index src (normDim src.rank dim) =
      .ok (okOr (_expand_index index src dim) (defaultTensor ℤ)) := hE'
  have hok := scatter_max_core_eq src (resolve_some index (G : ℤ)) hEc
  have hval : (okOr (scatter_max src index dim (some (G : ℤ)))
      (defaultTensor α, defaultTensor ℤ)).1 =
      (Tensor.scatter_reduce_amax
        ⟨src.shape.set (normDim src.rank dim) ((G : ℤ)).toNat, fun _ => ⊥⟩
        (normDim src.rank dim)
        (okOr (_expand_index index src dim) (defaultTensor ℤ)) src).map
        (fun v => v.unbot' 0) := by
    unfold scatter_max
    rw [hok]
    rfl
  constructor
  · unfold scatter_max
    rw [hok]
    rfl
  · intro p hp hbot
    rcases mem_allCoords_getD.mp hp with ⟨hplen, hpbd⟩
    have hlen : p.length = src.shape.length := by
      rw [hplen, List.length_set]
    have hoff : ∀ i < src.shape.length, i ≠ normDim src.rank dim →
        p.getD i 0 < src.shape.getD i 0 := by
      intro i hi hid
      have h1 := hpbd i (by rw [List.length_set]; exact hi)
      rw [getD_set_ne _ _ _ (fun hc => hid hc.symm)] at h1
      exact h1
    have hchar := scatter_amax_char
      ⟨src.shape.set (normDim src.rank dim) ((G : ℤ)).toNat, fun _ => ⊥⟩
      (normDim src.rank dim)
      (okOr (_expand_index index src dim) (defaultTensor ℤ)) src p
      (by rw [hsh]; exact hd) (by rw [hsh]; exact hlen)
      (by
        intro i hi hid
        rw [hsh] at hi ⊢
        exact hoff i hi hid)
    rcases hchar with ⟨_, _, hcases⟩
    have hdata : (okOr (scatter_max src index dim (some (G : ℤ)))
        (defaultTensor α, defaultTensor ℤ)).1.data p =
        ((Tensor.scatter_reduce_amax
          ⟨src.shape.set (normDim src.rank dim) ((G : ℤ)).toNat, fun _ => ⊥⟩
          (normDim src.rank dim)
          (okOr (_expand_index index src dim) (defaultTensor ℤ)) src).data p).unbot' 0 := by
      rw [hval]
      rfl
    rcases hcases with hcbot | ⟨j₁, hj₁n, hj₁c, hj₁v⟩
    · rw [hdata, hcbot]
      rfl
    · have hj₁n' : j₁ < src.shape.getD (normDim src.rank dim) 0 := by
        rw [hsh] at hj₁n
        exact hj₁n
      have hj₁c' := (group_cond_iff src hd hEc hsh hbd hlen hoff hj₁n').mp hj₁c
      have hmem : j₁ ∈ (List.range (src.shape.getD (normDim src.rank dim) 0)).filter
          (fun j => (okOr (_expand_index index src dim) (defaultTensor ℤ)).data
            (p.set (normDim src.rank dim) j) = (p.getD (normDim src.rank dim) 0 : ℤ)) :=
        List.mem_filter.mpr ⟨List.mem_range.mpr hj₁n', decide_eq_true hj₁c'⟩
      rw [hdata, hj₁v, hbot j₁ hmem]
      rfl

end SDPV

namespace SDPV

theorem claim_C9_neg_inf_group_zero_witness :
    normDim (⟨[2], fun _ => (⊥ : WithBot ℤ)⟩ : Tensor (WithBot ℤ)).rank 0 < (⟨[2], fun _ => (⊥ : WithBot ℤ)⟩ : Tensor (WithBot ℤ)).rank ∧
    isOkE (_expand_index (⟨[2], fun _ => (0 : ℤ)⟩ : Tensor ℤ) (⟨[2], fun _ => (⊥ : WithBot ℤ)⟩ : Tensor (WithBot ℤ)) 0) = true ∧
    (okOr (_expand_index (⟨[2], fun _ => (0 : ℤ)⟩ : Tensor ℤ) (⟨[2], fun _ => (⊥ : WithBot ℤ)⟩ : Tensor (WithBot ℤ)) 0) (defaultTensor ℤ)).shape = (⟨[2], fun _ => (⊥ : WithBot ℤ)⟩ : Tensor (WithBot ℤ)).shape ∧
    (∀ q ∈ allCoords (⟨[2], fun _ => (0 : ℤ)⟩ : Tensor ℤ).shape, 0 ≤ (⟨[2], fun _ => (0 : ℤ)⟩ : Tensor ℤ).data q ∧ (⟨[2], fun _ => (0 : ℤ)⟩ : Tensor ℤ).data q < ((2 : ℕ) : ℤ)) ∧
    (isOkE (scatter_max (⟨[2], fun _ => (⊥ : WithBot ℤ)⟩ : Tensor (WithBot ℤ)) (⟨[2], fun _ => (0 : ℤ)⟩ : Tensor ℤ) 0 (some ((2 : ℕ) : ℤ))) = true ∧
    ∀ p ∈ allCoords ((⟨[2], fun _ => (⊥ : WithBot ℤ)⟩ : Tensor (WithBot ℤ)).shape.set (normDim (⟨[2], fun _ => (⊥ : WithBot ℤ)⟩ : Tensor (WithBot ℤ)).rank 0) 2),
      (∀ j ∈ ((List.range ((⟨[2], fun _ => (⊥ : WithBot ℤ)⟩ : Tensor (WithBot ℤ)).shape.getD (normDim (⟨[2], fun _ => (⊥ : WithBot ℤ)⟩ : Tensor (WithBot ℤ)).rank 0) 0)).filter
      (fun j => (okOr (_expand_index (⟨[2], fun _ => (0 : ℤ)⟩ : Tensor ℤ) (⟨[2], fun _ => (⊥ : WithBot ℤ)⟩ : Tensor (WithBot ℤ)) 0) (defaultTensor ℤ)).data (p.set (normDim (⟨[2], fun _ => (⊥ : WithBot ℤ)⟩ : Tensor (WithBot ℤ)).rank 0) j) = (p.getD (normDim (⟨[2], fun _ => (⊥ : WithBot ℤ)⟩ : Tensor (WithBot ℤ)).rank 0) 0 : ℤ))),
        (⟨[2], fun _ => (⊥ : WithBot ℤ)⟩ : Tensor (WithBot ℤ)).data (p.set (normDim (⟨[2], fun _ => (⊥ : WithBot ℤ)⟩ : Tensor (WithBot ℤ)).rank 0) j) = ⊥) →
      (okOr (scatter_max (⟨[2], fun _ => (⊥ : WithBot ℤ)⟩ : Tensor (WithBot ℤ)) (⟨[2], fun _ => (0 : ℤ)⟩ : Tensor ℤ) 0 (some ((2 : ℕ) : ℤ))) (defaultTensor ℤ, defaultTensor ℤ)).1.data p = 0) :=
  ⟨by decide, by decide, by decide, by decide,
    claim_C9_neg_inf_group_zero _ _ _ _ (by decide) (by decide) (by decide) (by decide)⟩

end SDPV

namespace SDPV

/-- Unfolding of a successful grouped softmax: with the group count
resolved and the index expanded, the result is the elementwise quotient of
the exponentials of the max-centered source by the gathered per-group sums
clamped from below by the epsilon. -/
theorem scatter_softmax_core_eq {index : Tensor ℤ} {d : ℕ} {ds : Option ℤ} {G : ℤ}
    {iexp : Tensor ℤ} (src : Tensor ℝ)
    (hres : resolveDimSize index ds = .ok G)
    (hE : _expand_index_core index src d = .ok iexp) :
    scatter_softmax_core src index d ds =
      .ok (Tensor.zip
        ((Tensor.zip src
          (((Tensor.scatter_reduce_amax
            ⟨(src.map (fun x => (x : WithBot ℝ))).shape.set d G.toNat, fun _ => ⊥⟩ d iexp
            (src.map (fun x => (x : WithBot ℝ)))).map
              (fun v => WithBot.unbot' 0 v)).gather d iexp)
          (fun a b => a - b)).map Real.exp)
        (((Tensor.scatter_add ⟨src.shape.set d G.toNat, fun _ => 0⟩ d iexp
          ((Tensor.zip src
            (((Tensor.scatter_reduce_amax
              ⟨(src.map (fun x => (x : WithBot ℝ))).shape.set d G.toNat, fun _ => ⊥⟩ d iexp
              (src.map (fun x => (x : WithBot ℝ)))).map
                (fun v => WithBot.unbot' 0 v)).gather d iexp)
            (fun a b => a - b)).map Real.exp)).gather d iexp).map
          (fun v => max v (1e-12 : ℝ)))
        (fun a b => a / b)) := by
  have hEm : _expand_index_core index (src.map (fun x => (x : WithBot ℝ))) d =
      .ok iexp := hE
  have hokmax := scatter_max_core_eq (src.map (fun x => (x : WithBot ℝ)))
    (resolve_some index G) hEm
  have hEe : _expand_index_core index
      ((Tensor.zip src
        (((Tensor.scatter_reduce_amax
          ⟨(src.map (fun x => (x : WithBot ℝ))).shape.set d G.toNat, fun _ => ⊥⟩ d iexp
          (src.map (fun x => (x : WithBot ℝ)))).map
            (fun v => WithBot.unbot' 0 v)).gather d iexp)
        (fun a b => a - b)).map Real.exp) d = .ok iexp := hE
  have hoksum := scatter_sum_core_eq
    ((Tensor.zip src
      (((Tensor.scatter_reduce_amax
        ⟨(src.map (fun x => (x : WithBot ℝ))).shape.set d G.toNat, fun _ => ⊥⟩ d iexp
        (src.map (fun x => (x : WithBot ℝ)))).map
          (fun v => WithBot.unbot' 0 v)).gather d iexp)
      (fun a b => a - b)).map Real.exp)
    (resolve_some index G) hEe
  simp only [scatter_softmax_core, hres, hE, hokmax, hoksum]
  rfl

end SDPV

namespace SDPV

/-- At a valid source position, the gathered per-group maximum of a
uniformly shifted source is the gathered per-group maximum of the source,
shifted: the group gathered at a position always contains the position
itself, so both maxima are attained and differ exactly by the shift. -/
theorem amax_data_shift (sh1 sh2 : List ℕ) (src : Tensor ℝ) (c : ℝ) (iexp : Tensor ℤ)
    {d : ℕ} (hsh : iexp.shape = src.shape) (hd : d < src.shape.length)
    {p : List ℕ} (hp : p ∈ allCoords src.shape) :
    ∃ v : ℝ,
      (Tensor.scatter_reduce_amax ⟨sh1, fun _ => (⊥ : WithBot ℝ)⟩ d iexp
        (src.map (fun x => (x : WithBot ℝ)))).data (p.set d (iexp.data p).toNat) =
        (v : WithBot ℝ) ∧
      (Tensor.scatter_reduce_amax ⟨sh2, fun _ => (⊥ : WithBot ℝ)⟩ d iexp
        ((src.map (fun x => x + c)).map (fun x => (x : WithBot ℝ)))).data
        (p.set d (iexp.data p).toNat) = ((v + c : ℝ) : WithBot ℝ) := by
  rcases mem_allCoords_getD.mp hp with ⟨hplen, hpbd⟩
  have hdp : d < p.length := by omega
  have hlen0 : (p.set d (iexp.data p).toNat).length = iexp.shape.length := by
    rw [List.length_set, hsh]
    exact hplen
  have hoff0 : ∀ i < iexp.shape.length, i ≠ d →
      (p.set d (iexp.data p).toNat).getD i 0 < iexp.shape.getD i 0 := by
    intro i hi hid
    rw [hsh] at hi ⊢
    rw [getD_set_ne _ _ _ (fun hc => hid hc.symm)]
    exact hpbd i hi
  have hd0 : d < iexp.shape.length := by
    rw [hsh]
    exact hd
  have char1 := scatter_amax_char ⟨sh1, fun _ => (⊥ : WithBot ℝ)⟩ d iexp
    (src.map (fun x => (x : WithBot ℝ))) (p.set d (iexp.data p).toNat) hd0 hlen0 hoff0
  have char2 := scatter_amax_char ⟨sh2, fun _ => (⊥ : WithBot ℝ)⟩ d iexp
    ((src.map (fun x => x + c)).map (fun x => (x : WithBot ℝ)))
    (p.set d (iexp.data p).toNat) hd0 hlen0 hoff0
  have hped : ∀ j : ℕ, (p.set d (iexp.data p).toNat).set d j = p.set d j := by
    intro j
    rw [List.set_set]
  have hpg : (p.set d (iexp.data p).toNat).getD d 0 = (iexp.data p).toNat :=
    getD_set_self _ _ _ _ hdp
  have hset0 : p.set d (p.getD d 0) = p := set_getD_self _ _ _ hdp
  have hj₀n : p.getD d 0 < iexp.shape.getD d 0 := by
    rw [hsh]
    exact hpbd d hd
  have hcond₀ : (iexp.data ((p.set d (iexp.data p).toNat).set d (p.getD d 0))).toNat =
      (p.set d (iexp.data p).toNat).getD d 0 := by
    rw [hped, hset0, hpg]
  have hub1₀ := char1.2.1 (p.getD d 0) hj₀n hcond₀
  have hub2₀ := char2.2.1 (p.getD d 0) hj₀n hcond₀
  rw [hped, hset0] at hub1₀ hub2₀
  rcases char1.2.2 with hbot1 | ⟨j₁, hj₁n, hj₁c, hj₁v⟩
  · exfalso
    rw [hbot1] at hub1₀
    have hbad : ((src.data p : WithBot ℝ)) ≤ ⊥ := hub1₀
    simp at hbad
  rcases char2.2.2 with hbot2 | ⟨j₂, hj₂n, hj₂c, hj₂v⟩
  · exfalso
    rw [hbot2] at hub2₀
    have hbad : (((src.data p + c : ℝ) : WithBot ℝ)) ≤ ⊥ := hub2₀
    simp at hbad
  have hub1₂ := char1.2.1 j₂ hj₂n hj₂c
  have hub2₁ := char2.2.1 j₁ hj₁n hj₁c
  rw [hj₁v] at hub1₂
  rw [hj₂v] at hub2₁
  have h12 : src.data ((p.set d (iexp.data p).toNat).set d j₂) ≤
      src.data ((p.set d (iexp.data p).toNat).set d j₁) := WithBot.coe_le_coe.mp hub1₂
  have h21 : src.data ((p.set d (iexp.data p).toNat).set d j₁) + c ≤
      src.data ((p.set d (iexp.data p).toNat).set d j₂) + c := WithBot.coe_le_coe.mp hub2₁
  have heq : src.data ((p.set d (iexp.data p).toNat).set d j₁) =
      src.data ((p.set d (iexp.data p).toNat).set d j₂) :=
    le_antisymm (by linarith) h12
  refine ⟨src.data ((p.set d (iexp.data p).toNat).set d j₁), hj₁v, ?_⟩
  rw [hj₂v]
  show ((src.data ((p.set d (iexp.data p).toNat).set d j₂) + c : ℝ) : WithBot ℝ) =
    ((src.data ((p.set d (iexp.data p).toNat).set d j₁) + c : ℝ) : WithBot ℝ)
  rw [heq]


theorem okOrOk {β : Type} (b dflt : β) : okOr (.ok b) dflt = b := rfl

theorem tensorMapAddData (c : ℝ) (t : Tensor ℝ) (p : List ℕ) :
    (t.map (fun x => x + c)).data p = t.data p + c := rfl

theorem bigShapeLemma (src A B : Tensor ℝ) :
    (Tensor.zip ((Tensor.zip src A (fun a b => a - b)).map Real.exp) B
      (fun a b => a / b)).shape = src.shape := rfl

theorem sexpData (src : Tensor ℝ) (mx : Tensor (WithBot ℝ)) (d : ℕ)
    (iexp : Tensor ℤ) (q : List ℕ) :
    ((Tensor.zip src ((mx.map (fun v => WithBot.unbot' 0 v)).gather d iexp)
      (fun a b => a - b)).map Real.exp).data q =
      Real.exp (src.data q -
        WithBot.unbot' 0 (mx.data (q.set d (iexp.data q).toNat))) := rfl

theorem bigDataLemma (src : Tensor ℝ) (mx : Tensor (WithBot ℝ)) (sum : Tensor ℝ)
    (d : ℕ) (iexp : Tensor ℤ) (p : List ℕ) :
    (Tensor.zip
      ((Tensor.zip src ((mx.map (fun v => WithBot.unbot' 0 v)).gather d iexp)
        (fun a b => a - b)).map Real.exp)
      ((sum.gather d iexp).map (fun v => max v (1e-12 : ℝ)))
      (fun a b => a / b)).data p =
      Real.exp (src.data p -
        WithBot.unbot' 0 (mx.data (p.set d (iexp.data p).toNat))) /
        max (sum.data (p.set d (iexp.data p).toNat)) (1e-12 : ℝ) := rfl

theorem scatter_add_congr2 (shA shB : List ℕ) (d : ℕ)
    (iexp : Tensor ℤ) (srcA srcB : Tensor ℝ)
    (h : ∀ q ∈ allCoords iexp.shape, srcA.data q = srcB.data q) (x : List ℕ) :
    (Tensor.scatter_add ⟨shA, fun _ => (0 : ℝ)⟩ d iexp srcA).data x =
      (Tensor.scatter_add ⟨shB, fun _ => (0 : ℝ)⟩ d iexp srcB).data x := by
  have h1 := foldl_update_data_add (allCoords iexp.shape)
    (⟨shA, fun _ => (0 : ℝ)⟩ : Tensor ℝ)
    (fun q => q.set d (iexp.data q).toNat) (fun q => srcA.data q) x
  have h2 := foldl_update_data_add (allCoords iexp.shape)
    (⟨shB, fun _ => (0 : ℝ)⟩ : Tensor ℝ)
    (fun q => q.set d (iexp.data q).toNat) (fun q => srcB.data q) x
  have hAB : ((allCoords iexp.shape).filter
      (fun q => q.set d (iexp.data q).toNat = x)).map (fun q => srcA.data q) =
      ((allCoords iexp.shape).filter
      (fun q => q.set d (iexp.data q).toNat = x)).map (fun q => srcB.data q) :=
    List.map_congr_left (fun q hq => h q (List.mem_of_mem_filter hq))
  unfold Tensor.scatter_add
  rw [h1, h2, hAB]

/-- C4: grouped softmax is invariant under adding a uniform scalar shift to
every element of the source: on any input with a valid reduction axis where
the group count resolves and the index expands to the source shape, the
shifted and unshifted calls both succeed and return arrays of the same
shape that agree at every valid coordinate (the max-subtraction cancels the
shift exactly). -/
theorem claim_C4_shift_invariance (src : Tensor ℝ) (c : ℝ) (index : Tensor ℤ)
    (dim : ℤ) (ds : Option ℤ)
    (hd : normDim src.rank dim < src.rank)
    (hres : isOkE (resolveDimSize index ds) = true)
    (hE : isOkE (_expand_index index src dim) = true)
    (hsh : (okOr (_expand_index index src dim) (defaultTensor ℤ)).shape = src.shape) :
    isOkE (scatter_softmax src index dim ds) = true ∧
    isOkE (scatter_softmax (src.map (fun x => x + c)) index dim ds) = true ∧
    (okOr (scatter_softmax (src.map (fun x => x + c)) index dim ds)
      (defaultTensor ℝ)).shape =
      (okOr (scatter_softmax src index dim ds) (defaultTensor ℝ)).shape ∧
    ∀ p ∈ allCoords src.shape,
      (okOr (scatter_softmax (src.map (fun x => x + c)) index dim ds)
        (defaultTensor ℝ)).data p =
        (okOr (scatter_softmax src index dim ds) (defaultTensor ℝ)).data p := by
  have hres2 : resolveDimSize index ds = .ok (okOr (resolveDimSize index ds) 0) := okOr_spec _ hres
  have hE2 : _expand_index index src dim = .ok (okOr (_expand_index index src dim) (defaultTensor ℤ)) := okOr_spec _ hE
  have hEc : _expand_index_core index src (normDim src.rank dim) = .ok (okOr (_expand_index index src dim) (defaultTensor ℤ)) := hE2
  have hEc2 : _expand_index_core index (src.map (fun x => x + c)) (normDim src.rank dim) =
      .ok (okOr (_expand_index index src dim) (defaultTensor ℤ)) := hEc
  have hs1 := scatter_softmax_core_eq src hres2 hEc
  have hs2 := scatter_softmax_core_eq (src.map (fun x => x + c)) hres2 hEc2
  have hun1 : scatter_softmax src index dim ds =
      scatter_softmax_core src index (normDim src.rank dim) ds := rfl
  have hun2 : scatter_softmax (src.map (fun x => x + c)) index dim ds =
      scatter_softmax_core (src.map (fun x => x + c)) index (normDim src.rank dim) ds := rfl
  have hd2 : (normDim src.rank dim) < src.shape.length := hd
  refine ⟨by rw [hun1, hs1]; rfl, by rw [hun2, hs2]; rfl,
    by
      rw [hun1, hun2, hs1, hs2, okOrOk, okOrOk]
      exact (bigShapeLemma (src.map (fun x => x + c)) _ _).trans
        ((bigShapeLemma src _ _).symm.trans (congrArg Tensor.shape rfl)), ?_⟩
  intro p hp
  have hcen : ∀ q ∈ allCoords (okOr (_expand_index index src dim) (defaultTensor ℤ)).shape,
      ((Tensor.zip (src.map (fun x => x + c))
      (((Tensor.scatter_reduce_amax ⟨(((src.map (fun x => x + c)).map (fun x => (x : WithBot ℝ))).shape.set (normDim src.rank dim) (okOr (resolveDimSize index ds) 0).toNat), fun _ => (⊥ : WithBot ℝ)⟩ (normDim src.rank dim) (okOr (_expand_index index src dim) (defaultTensor ℤ))
      ((src.map (fun x => x + c)).map (fun x => (x : WithBot ℝ)))).map (fun v => WithBot.unbot' 0 v)).gather (normDim src.rank dim) (okOr (_expand_index index src dim) (defaultTensor ℤ)))
      (fun a b => a - b)).map Real.exp).data q = ((Tensor.zip src (((Tensor.scatter_reduce_amax ⟨((src.map (fun x => (x : WithBot ℝ))).shape.set (normDim src.rank dim) (okOr (resolveDimSize index ds) 0).toNat), fun _ => (⊥ : WithBot ℝ)⟩ (normDim src.rank dim) (okOr (_expand_index index src dim) (defaultTensor ℤ))
      (src.map (fun x => (x : WithBot ℝ)))).map (fun v => WithBot.unbot' 0 v)).gather (normDim src.rank dim) (okOr (_expand_index index src dim) (defaultTensor ℤ)))
      (fun a b => a - b)).map Real.exp).data q := by
    intro q hq
    rw [hsh] at hq
    rcases amax_data_shift ((src.map (fun x => (x : WithBot ℝ))).shape.set (normDim src.rank dim) (okOr (resolveDimSize index ds) 0).toNat) (((src.map (fun x => x + c)).map (fun x => (x : WithBot ℝ))).shape.set (normDim src.rank dim) (okOr (resolveDimSize index ds) 0).toNat) src c (okOr (_expand_index index src dim) (defaultTensor ℤ)) hsh hd2 hq with ⟨w, hw1, hw2⟩
    rw [sexpData, sexpData, tensorMapAddData, hw2, hw1,
      WithBot.unbot'_coe, WithBot.unbot'_coe, add_sub_add_right_eq_sub]
  have hsum : (Tensor.scatter_add ⟨((src.map (fun x => x + c)).shape.set (normDim src.rank dim) (okOr (resolveDimSize index ds) 0).toNat), fun _ => (0 : ℝ)⟩ (normDim src.rank dim) (okOr (_expand_index index src dim) (defaultTensor ℤ)) ((Tensor.zip (src.map (fun x => x + c))
      (((Tensor.scatter_reduce_amax ⟨(((src.map (fun x => x + c)).map (fun x => (x : WithBot ℝ))).shape.set (normDim src.rank dim) (okOr (resolveDimSize index ds) 0).toNat), fun _ => (⊥ : WithBot ℝ)⟩ (normDim src.rank dim) (okOr (_expand_index index src dim) (defaultTensor ℤ))
      ((src.map (fun x => x + c)).map (fun x => (x : WithBot ℝ)))).map (fun v => WithBot.unbot' 0 v)).gather (normDim src.rank dim) (okOr (_expand_index index src dim) (defaultTensor ℤ)))
      (fun a b => a - b)).map Real.exp)).data (p.set (normDim src.rank dim) ((okOr (_expand_index index src dim) (defaultTensor ℤ)).data p).toNat) = (Tensor.scatter_add ⟨(src.shape.set (normDim src.rank dim) (okOr (resolveDimSize index ds) 0).toNat), fun _ => (0 : ℝ)⟩ (normDim src.rank dim) (okOr (_expand_index index src dim) (defaultTensor ℤ)) ((Tensor.zip src (((Tensor.scatter_reduce_amax ⟨((src.map (fun x => (x : WithBot ℝ))).shape.set (normDim src.rank dim) (okOr (resolveDimSize index ds) 0).toNat), fun _ => (⊥ : WithBot ℝ)⟩ (normDim src.rank dim) (okOr (_expand_index index src dim) (defaultTensor ℤ))
      (src.map (fun x => (x : WithBot ℝ)))).map (fun v => WithBot.unbot' 0 v)).gather (normDim src.rank dim) (okOr (_expand_index index src dim) (defaultTensor ℤ)))
      (fun a b => a - b)).map Real.exp)).data (p.set (normDim src.rank dim) ((okOr (_expand_index index src dim) (defaultTensor ℤ)).data p).toNat) :=
    scatter_add_congr2 ((src.map (fun x => x + c)).shape.set (normDim src.rank dim) (okOr (resolveDimSize index ds) 0).toNat) (src.shape.set (normDim src.rank dim) (okOr (resolveDimSize index ds) 0).toNat) (normDim src.rank dim) (okOr (_expand_index index src dim) (defaultTensor ℤ)) ((Tensor.zip (src.map (fun x => x + c))
      (((Tensor.scatter_reduce_amax ⟨(((src.map (fun x => x + c)).map (fun x => (x : WithBot ℝ))).shape.set (normDim src.rank dim) (okOr (resolveDimSize index ds) 0).toNat), fun _ => (⊥ : WithBot ℝ)⟩ (normDim src.rank dim) (okOr (_expand_index index src dim) (defaultTensor ℤ))
      ((src.map (fun x => x + c)).map (fun x => (x : WithBot ℝ)))).map (fun v => WithBot.unbot' 0 v)).gather (normDim src.rank dim) (okOr (_expand_index index src dim) (defaultTensor ℤ)))
      (fun a b => a - b)).map Real.exp) ((Tensor.zip src (((Tensor.scatter_reduce_amax ⟨((src.map (fun x => (x : WithBot ℝ))).shape.set (normDim src.rank dim) (okOr (resolveDimSize index ds) 0).toNat), fun _ => (⊥ : WithBot ℝ)⟩ (normDim src.rank dim) (okOr (_expand_index index src dim) (defaultTensor ℤ))
      (src.map (fun x => (x : WithBot ℝ)))).map (fun v => WithBot.unbot' 0 v)).gather (normDim src.rank dim) (okOr (_expand_index index src dim) (defaultTensor ℤ)))
      (fun a b => a - b)).map Real.exp) hcen (p.set (normDim src.rank dim) ((okOr (_expand_index index src dim) (defaultTensor ℤ)).data p).toNat)
  rcases amax_data_shift ((src.map (fun x => (x : WithBot ℝ))).shape.set (normDim src.rank dim) (okOr (resolveDimSize index ds) 0).toNat) (((src.map (fun x => x + c)).map (fun x => (x : WithBot ℝ))).shape.set (normDim src.rank dim) (okOr (resolveDimSize index ds) 0).toNat) src c (okOr (_expand_index index src dim) (defaultTensor ℤ)) hsh hd2 hp with ⟨v, hv1, hv2⟩
  rw [hun1, hun2, hs1, hs2, okOrOk, okOrOk, bigDataLemma, bigDataLemma,
    tensorMapAddData, hv2, hv1, hsum, WithBot.unbot'_coe, WithBot.unbot'_coe,
    add_sub_add_right_eq_sub]

end SDPV

namespace SDPV

theorem claim_C4_shift_invariance_witness :
    normDim (⟨[1], fun _ => (0 : ℝ)⟩ : Tensor ℝ).rank 0 < (⟨[1], fun _ => (0 : ℝ)⟩ : Tensor ℝ).rank ∧
    isOkE (resolveDimSize (⟨[1], fun _ => (0 : ℤ)⟩ : Tensor ℤ) none) = true ∧
    isOkE (_expand_index (⟨[1], fun _ => (0 : ℤ)⟩ : Tensor ℤ) (⟨[1], fun _ => (0 : ℝ)⟩ : Tensor ℝ) 0) = true ∧
    (okOr (_expand_index (⟨[1], fun _ => (0 : ℤ)⟩ : Tensor ℤ) (⟨[1], fun _ => (0 : ℝ)⟩ : Tensor ℝ) 0) (defaultTensor ℤ)).shape = (⟨[1], fun _ => (0 : ℝ)⟩ : Tensor ℝ).shape ∧
    (isOkE (scatter_softmax (⟨[1], fun _ => (0 : ℝ)⟩ : Tensor ℝ) (⟨[1], fun _ => (0 : ℤ)⟩ : Tensor ℤ) 0 none) = true ∧
    isOkE (scatter_softmax ((⟨[1], fun _ => (0 : ℝ)⟩ : Tensor ℝ).map (fun x => x + 1)) (⟨[1], fun _ => (0 : ℤ)⟩ : Tensor ℤ) 0 none) = true ∧
    (okOr (scatter_softmax ((⟨[1], fun _ => (0 : ℝ)⟩ : Tensor ℝ).map (fun x => x + 1)) (⟨[1], fun _ => (0 : ℤ)⟩ : Tensor ℤ) 0 none) (defaultTensor ℝ)).shape = (okOr (scatter_softmax (⟨[1], fun _ => (0 : ℝ)⟩ : Tensor ℝ) (⟨[1], fun _ => (0 : ℤ)⟩ : Tensor ℤ) 0 none) (defaultTensor ℝ)).shape ∧
    ∀ p ∈ allCoords (⟨[1], fun _ => (0 : ℝ)⟩ : Tensor ℝ).shape,
      (okOr (scatter_softmax ((⟨[1], fun _ => (0 : ℝ)⟩ : Tensor ℝ).map (fun x => x + 1)) (⟨[1], fun _ => (0 : ℤ)⟩ : Tensor ℤ) 0 none) (defaultTensor ℝ)).data p = (okOr (scatter_softmax (⟨[1], fun _ => (0 : ℝ)⟩ : Tensor ℝ) (⟨[1], fun _ => (0 : ℤ)⟩ : Tensor ℤ) 0 none) (defaultTensor ℝ)).data p) :=
  ⟨by decide, by decide, by decide, by decide,
    claim_C4_shift_invariance _ 1 _ _ _ (by decide) (by decide) (by decide) (by decide)⟩

end SDPV

namespace SDPV

/-- Variant of the group condition transfer for an arbitrary group id. -/
theorem group_cond_iff_g {α : Type} {index : Tensor ℤ} (src : Tensor α) {d : ℕ}
    {iexp : Tensor ℤ} (hd : d < src.rank)
    (hEc : _expand_index_core index src d = .ok iexp)
    (hsh : iexp.shape = src.shape)
    (hbd0 : ∀ q ∈ allCoords index.shape, 0 ≤ index.data q)
    {p₀ : List ℕ} (hlen : p₀.length = src.shape.length)
    (hoff : ∀ i < src.shape.length, i ≠ d → p₀.getD i 0 < src.shape.getD i 0)
    {j g : ℕ} (hj : j < src.shape.getD d 0) :
    (iexp.data (p₀.set d j)).toNat = g ↔ iexp.data (p₀.set d j) = (g : ℤ) := by
  have hmem : p₀.set d j ∈ allCoords iexp.shape := by
    rw [hsh]
    exact set_mem_allCoords hd hlen hoff hj
  rcases expand_index_values hd hEc _ hmem with ⟨q, hq, hval⟩
  have h0 : 0 ≤ iexp.data (p₀.set d j) := by
    rw [hval]
    exact hbd0 q hq
  omega

theorem map_div_sum {β : Type} (l : List β) (f : β → ℝ) (S : ℝ) :
    (l.map (fun j => f j / S)).sum = (l.map f).sum / S := by
  induction l with
  | nil => simp
  | cons a as ih => simp [ih, add_div]

/-- Core of the softmax normalization: over any non-empty group (at a fixed
parallel slot), the softmax outputs sum to exactly one in the real-number
model: the gathered group maximum is attained, so the exponential sum is at
least one, the epsilon clamp is inactive, and the quotient telescopes. -/
theorem softmax_group_sum_eq_one (src : Tensor ℝ) (index : Tensor ℤ) (dim : ℤ)
    (ds : Option ℤ)
    (hd : normDim src.rank dim < src.rank)
    (hres : isOkE (resolveDimSize index ds) = true)
    (hE : isOkE (_expand_index index src dim) = true)
    (hsh : (okOr (_expand_index index src dim) (defaultTensor ℤ)).shape = src.shape)
    (hbd0 : ∀ q ∈ allCoords index.shape, 0 ≤ index.data q)
    {p : List ℕ} (hp : p ∈ allCoords src.shape) (g : ℕ)
    (hne : ((List.range (src.shape.getD (normDim src.rank dim) 0)).filter
      (fun j => (okOr (_expand_index index src dim) (defaultTensor ℤ)).data (p.set (normDim src.rank dim) j) = (g : ℤ))) ≠ []) :
    (((List.range (src.shape.getD (normDim src.rank dim) 0)).filter
      (fun j => (okOr (_expand_index index src dim) (defaultTensor ℤ)).data (p.set (normDim src.rank dim) j) = (g : ℤ))).map (fun j => (okOr (scatter_softmax src index dim ds) (defaultTensor ℝ)).data (p.set (normDim src.rank dim) j))).sum = 1 := by
  have hres2 : resolveDimSize index ds = .ok (okOr (resolveDimSize index ds) 0) := okOr_spec _ hres
  have hE2 : _expand_index index src dim = .ok (okOr (_expand_index index src dim) (defaultTensor ℤ)) := okOr_spec _ hE
  have hEc : _expand_index_core index src (normDim src.rank dim) = .ok (okOr (_expand_index index src dim) (defaultTensor ℤ)) := hE2
  have hs1 := scatter_softmax_core_eq src hres2 hEc
  have hun1 : scatter_softmax src index dim ds =
      scatter_softmax_core src index (normDim src.rank dim) ds := rfl
  have hdat : ∀ x : List ℕ, (okOr (scatter_softmax src index dim ds) (defaultTensor ℝ)).data x =
      Real.exp (src.data x -
        WithBot.unbot' 0 ((Tensor.scatter_reduce_amax ⟨((src.map (fun x => (x : WithBot ℝ))).shape.set (normDim src.rank dim) (okOr (resolveDimSize index ds) 0).toNat), fun _ => (⊥ : WithBot ℝ)⟩ (normDim src.rank dim) (okOr (_expand_index index src dim) (defaultTensor ℤ))
      (src.map (fun x => (x : WithBot ℝ)))).data (x.set (normDim src.rank dim) ((okOr (_expand_index index src dim) (defaultTensor ℤ)).data x).toNat))) /
      max ((Tensor.scatter_add ⟨(src.shape.set (normDim src.rank dim) (okOr (resolveDimSize index ds) 0).toNat), fun _ => (0 : ℝ)⟩ (normDim src.rank dim) (okOr (_expand_index index src dim) (defaultTensor ℤ)) ((Tensor.zip src (((Tensor.scatter_reduce_amax ⟨((src.map (fun x => (x : WithBot ℝ))).shape.set (normDim src.rank dim) (okOr (resolveDimSize index ds) 0).toNat), fun _ => (⊥ : WithBot ℝ)⟩ (normDim src.rank dim) (okOr (_expand_index index src dim) (defaultTensor ℤ))
      (src.map (fun x => (x : WithBot ℝ)))).map (fun v => WithBot.unbot' 0 v)).gather (normDim src.rank dim) (okOr (_expand_index index src dim) (defaultTensor ℤ)))
      (fun a b => a - b)).map Real.exp)).data (x.set (normDim src.rank dim) ((okOr (_expand_index index src dim) (defaultTensor ℤ)).data x).toNat)) (1e-12 : ℝ) := by
    intro x
    rw [hun1, hs1, okOrOk, bigDataLemma]
  rcases mem_allCoords_getD.mp hp with ⟨hplen, hpbd⟩
  have hDp : (normDim src.rank dim) < p.length := by
    have hr : src.rank = src.shape.length := rfl
    omega
  have hlen0 : (p.set (normDim src.rank dim) g).length = (okOr (_expand_index index src dim) (defaultTensor ℤ)).shape.length := by
    rw [List.length_set, hsh]
    exact hplen
  have hoff0 : ∀ i < (okOr (_expand_index index src dim) (defaultTensor ℤ)).shape.length, i ≠ (normDim src.rank dim) →
      (p.set (normDim src.rank dim) g).getD i 0 < (okOr (_expand_index index src dim) (defaultTensor ℤ)).shape.getD i 0 := by
    intro i hi hid
    rw [hsh] at hi ⊢
    rw [getD_set_ne _ _ _ (fun hc => hid hc.symm)]
    exact hpbd i hi
  have hd0 : (normDim src.rank dim) < (okOr (_expand_index index src dim) (defaultTensor ℤ)).shape.length := by
    rw [hsh]
    exact hd
  have hget : (p.set (normDim src.rank dim) g).getD (normDim src.rank dim) 0 = g := getD_set_self _ _ _ _ hDp
  have hfix : ∀ j : ℕ, (p.set (normDim src.rank dim) g).set (normDim src.rank dim) j = p.set (normDim src.rank dim) j :=
    fun j => List.set_set _ _ _ _
  have hSUM := scatter_add_group ⟨(src.shape.set (normDim src.rank dim) (okOr (resolveDimSize index ds) 0).toNat), fun _ => (0 : ℝ)⟩ (normDim src.rank dim) (okOr (_expand_index index src dim) (defaultTensor ℤ)) ((Tensor.zip src (((Tensor.scatter_reduce_amax ⟨((src.map (fun x => (x : WithBot ℝ))).shape.set (normDim src.rank dim) (okOr (resolveDimSize index ds) 0).toNat), fun _ => (⊥ : WithBot ℝ)⟩ (normDim src.rank dim) (okOr (_expand_index index src dim) (defaultTensor ℤ))
      (src.map (fun x => (x : WithBot ℝ)))).map (fun v => WithBot.unbot' 0 v)).gather (normDim src.rank dim) (okOr (_expand_index index src dim) (defaultTensor ℤ)))
      (fun a b => a - b)).map Real.exp)
    (p.set (normDim src.rank dim) g) hd0 hlen0 hoff0
  rw [hsh] at hSUM
  rw [show (⟨(src.shape.set (normDim src.rank dim) (okOr (resolveDimSize index ds) 0).toNat), fun _ => (0 : ℝ)⟩ : Tensor ℝ).data (p.set (normDim src.rank dim) g) = 0 from rfl,
    zero_add] at hSUM
  have hfil : (List.range (src.shape.getD (normDim src.rank dim) 0)).filter
      (fun j => ((okOr (_expand_index index src dim) (defaultTensor ℤ)).data ((p.set (normDim src.rank dim) g).set (normDim src.rank dim) j)).toNat = (p.set (normDim src.rank dim) g).getD (normDim src.rank dim) 0) =
      ((List.range (src.shape.getD (normDim src.rank dim) 0)).filter
      (fun j => (okOr (_expand_index index src dim) (defaultTensor ℤ)).data (p.set (normDim src.rank dim) j) = (g : ℤ))) := by
    apply List.filter_congr
    intro j hj
    rw [hfix j, hget]
    exact decide_eq_decide.mpr
      (group_cond_iff_g src hd hEc hsh hbd0 hplen
        (by
          intro i hi hid
          exact hpbd i hi) (List.mem_range.mp hj))
  rw [hfil] at hSUM
  rw [List.map_congr_left (fun j _ => by rw [hfix j] :
    ∀ j ∈ ((List.range (src.shape.getD (normDim src.rank dim) 0)).filter
      (fun j => (okOr (_expand_index index src dim) (defaultTensor ℤ)).data (p.set (normDim src.rank dim) j) = (g : ℤ))), ((Tensor.zip src (((Tensor.scatter_reduce_amax ⟨((src.map (fun x => (x : WithBot ℝ))).shape.set (normDim src.rank dim) (okOr (resolveDimSize index ds) 0).toNat), fun _ => (⊥ : WithBot ℝ)⟩ (normDim src.rank dim) (okOr (_expand_index index src dim) (defaultTensor ℤ))
      (src.map (fun x => (x : WithBot ℝ)))).map (fun v => WithBot.unbot' 0 v)).gather (normDim src.rank dim) (okOr (_expand_index index src dim) (defaultTensor ℤ)))
      (fun a b => a - b)).map Real.exp).data ((p.set (normDim src.rank dim) g).set (normDim src.rank dim) j) = ((Tensor.zip src (((Tensor.scatter_reduce_amax ⟨((src.map (fun x => (x : WithBot ℝ))).shape.set (normDim src.rank dim) (okOr (resolveDimSize index ds) 0).toNat), fun _ => (⊥ : WithBot ℝ)⟩ (normDim src.rank dim) (okOr (_expand_index index src dim) (defaultTensor ℤ))
      (src.map (fun x => (x : WithBot ℝ)))).map (fun v => WithBot.unbot' 0 v)).gather (normDim src.rank dim) (okOr (_expand_index index src dim) (defaultTensor ℤ)))
      (fun a b => a - b)).map Real.exp).data (p.set (normDim src.rank dim) j))] at hSUM
  have hchar := scatter_amax_char ⟨((src.map (fun x => (x : WithBot ℝ))).shape.set (normDim src.rank dim) (okOr (resolveDimSize index ds) 0).toNat), fun _ => (⊥ : WithBot ℝ)⟩ (normDim src.rank dim) (okOr (_expand_index index src dim) (defaultTensor ℤ))
    (src.map (fun x => (x : WithBot ℝ))) (p.set (normDim src.rank dim) g) hd0 hlen0 hoff0
  rcases hchar with ⟨-, hub, hcases⟩
  rcases List.exists_mem_of_ne_nil _ hne with ⟨ja, hja⟩
  rcases List.mem_filter.mp hja with ⟨hjar, hjac⟩
  have hjan : ja < src.shape.getD (normDim src.rank dim) 0 := List.mem_range.mp hjar
  have hjac2 : (okOr (_expand_index index src dim) (defaultTensor ℤ)).data (p.set (normDim src.rank dim) ja) = (g : ℤ) := of_decide_eq_true hjac
  have hcond_a : ((okOr (_expand_index index src dim) (defaultTensor ℤ)).data ((p.set (normDim src.rank dim) g).set (normDim src.rank dim) ja)).toNat =
      (p.set (normDim src.rank dim) g).getD (normDim src.rank dim) 0 := by
    rw [hfix ja, hget, hjac2, Int.toNat_natCast]
  have hub_a := hub ja (by rw [hsh]; exact hjan) hcond_a
  rcases hcases with hbot | ⟨j₁, hj₁n, hj₁c, hj₁v⟩
  · exfalso
    rw [hbot] at hub_a
    have hbad : ((src.data ((p.set (normDim src.rank dim) g).set (normDim src.rank dim) ja) : WithBot ℝ)) ≤ ⊥ := hub_a
    simp at hbad
  have hj₁n2 : j₁ < src.shape.getD (normDim src.rank dim) 0 := by
    rw [hsh] at hj₁n
    exact hj₁n
  rw [hfix j₁, hget] at hj₁c
  have hj₁c2 : (okOr (_expand_index index src dim) (defaultTensor ℤ)).data (p.set (normDim src.rank dim) j₁) = (g : ℤ) :=
    (group_cond_iff_g src hd hEc hsh hbd0 hplen
      (fun i hi hid => hpbd i hi) hj₁n2).mp hj₁c
  have hj₁J : j₁ ∈ ((List.range (src.shape.getD (normDim src.rank dim) 0)).filter
      (fun j => (okOr (_expand_index index src dim) (defaultTensor ℤ)).data (p.set (normDim src.rank dim) j) = (g : ℤ))) :=
    List.mem_filter.mpr ⟨List.mem_range.mpr hj₁n2, decide_eq_true hj₁c2⟩
  have hPRE : (Tensor.scatter_reduce_amax ⟨((src.map (fun x => (x : WithBot ℝ))).shape.set (normDim src.rank dim) (okOr (resolveDimSize index ds) 0).toNat), fun _ => (⊥ : WithBot ℝ)⟩ (normDim src.rank dim) (okOr (_expand_index index src dim) (defaultTensor ℤ))
      (src.map (fun x => (x : WithBot ℝ)))).data (p.set (normDim src.rank dim) g) =
      ((src.data (p.set (normDim src.rank dim) j₁) : ℝ) : WithBot ℝ) := by
    rw [hj₁v, hfix j₁]
    rfl
  have hsexp : ∀ j ∈ ((List.range (src.shape.getD (normDim src.rank dim) 0)).filter
      (fun j => (okOr (_expand_index index src dim) (defaultTensor ℤ)).data (p.set (normDim src.rank dim) j) = (g : ℤ))), ((Tensor.zip src (((Tensor.scatter_reduce_amax ⟨((src.map (fun x => (x : WithBot ℝ))).shape.set (normDim src.rank dim) (okOr (resolveDimSize index ds) 0).toNat), fun _ => (⊥ : WithBot ℝ)⟩ (normDim src.rank dim) (okOr (_expand_index index src dim) (defaultTensor ℤ))
      (src.map (fun x => (x : WithBot ℝ)))).map (fun v => WithBot.unbot' 0 v)).gather (normDim src.rank dim) (okOr (_expand_index index src dim) (defaultTensor ℤ)))
      (fun a b => a - b)).map Real.exp).data (p.set (normDim src.rank dim) j) =
      Real.exp (src.data (p.set (normDim src.rank dim) j) - src.data (p.set (normDim src.rank dim) j₁)) := by
    intro j hj
    rcases List.mem_filter.mp hj with ⟨hjr, hjc⟩
    have hjceq : (okOr (_expand_index index src dim) (defaultTensor ℤ)).data (p.set (normDim src.rank dim) j) = (g : ℤ) := of_decide_eq_true hjc
    rw [sexpData, hjceq, Int.toNat_natCast, List.set_set, hPRE, WithBot.unbot'_coe]
  rw [List.map_congr_left hsexp] at hSUM
  have hnn : ∀ x ∈ ((List.range (src.shape.getD (normDim src.rank dim) 0)).filter
      (fun j => (okOr (_expand_index index src dim) (defaultTensor ℤ)).data (p.set (normDim src.rank dim) j) = (g : ℤ))).map (fun j => Real.exp (src.data (p.set (normDim src.rank dim) j) - src.data (p.set (normDim src.rank dim) j₁))), (0 : ℝ) ≤ x := by
    intro x hx
    rcases List.mem_map.mp hx with ⟨j, -, rfl⟩
    exact Real.exp_nonneg _
  have hmem1 : Real.exp (src.data (p.set (normDim src.rank dim) j₁) - src.data (p.set (normDim src.rank dim) j₁)) ∈
      ((List.range (src.shape.getD (normDim src.rank dim) 0)).filter
      (fun j => (okOr (_expand_index index src dim) (defaultTensor ℤ)).data (p.set (normDim src.rank dim) j) = (g : ℤ))).map (fun j => Real.exp (src.data (p.set (normDim src.rank dim) j) - src.data (p.set (normDim src.rank dim) j₁))) := List.mem_map.mpr ⟨j₁, hj₁J, rfl⟩
  have hS1 : (1 : ℝ) ≤ (((List.range (src.shape.getD (normDim src.rank dim) 0)).filter
      (fun j => (okOr (_expand_index index src dim) (defaultTensor ℤ)).data (p.set (normDim src.rank dim) j) = (g : ℤ))).map (fun j => Real.exp (src.data (p.set (normDim src.rank dim) j) - src.data (p.set (normDim src.rank dim) j₁)))).sum := by
    have h2 := List.single_le_sum hnn _ hmem1
    rw [sub_self, Real.exp_zero] at h2
    exact h2
  have hSne : (((List.range (src.shape.getD (normDim src.rank dim) 0)).filter
      (fun j => (okOr (_expand_index index src dim) (defaultTensor ℤ)).data (p.set (normDim src.rank dim) j) = (g : ℤ))).map (fun j => Real.exp (src.data (p.set (normDim src.rank dim) j) - src.data (p.set (normDim src.rank dim) j₁)))).sum ≠ 0 :=
    ne_of_gt (lt_of_lt_of_le one_pos hS1)
  have hmax : max ((Tensor.scatter_add ⟨(src.shape.set (normDim src.rank dim) (okOr (resolveDimSize index ds) 0).toNat), fun _ => (0 : ℝ)⟩ (normDim src.rank dim) (okOr (_expand_index index src dim) (defaultTensor ℤ)) ((Tensor.zip src (((Tensor.scatter_reduce_amax ⟨((src.map (fun x => (x : WithBot ℝ))).shape.set (normDim src.rank dim) (okOr (resolveDimSize index ds) 0).toNat), fun _ => (⊥ : WithBot ℝ)⟩ (normDim src.rank dim) (okOr (_expand_index index src dim) (defaultTensor ℤ))
      (src.map (fun x => (x : WithBot ℝ)))).map (fun v => WithBot.unbot' 0 v)).gather (normDim src.rank dim) (okOr (_expand_index index src dim) (defaultTensor ℤ)))
      (fun a b => a - b)).map Real.exp)).data (p.set (normDim src.rank dim) g)) (1e-12 : ℝ) = (((List.range (src.shape.getD (normDim src.rank dim) 0)).filter
      (fun j => (okOr (_expand_index index src dim) (defaultTensor ℤ)).data (p.set (normDim src.rank dim) j) = (g : ℤ))).map (fun j => Real.exp (src.data (p.set (normDim src.rank dim) j) - src.data (p.set (normDim src.rank dim) j₁)))).sum := by
    rw [hSUM]
    exact max_eq_left ((by norm_num : (1e-12 : ℝ) ≤ 1).trans hS1)
  have hout : ∀ j ∈ ((List.range (src.shape.getD (normDim src.rank dim) 0)).filter
      (fun j => (okOr (_expand_index index src dim) (defaultTensor ℤ)).data (p.set (normDim src.rank dim) j) = (g : ℤ))), (okOr (scatter_softmax src index dim ds) (defaultTensor ℝ)).data (p.set (normDim src.rank dim) j) =
      Real.exp (src.data (p.set (normDim src.rank dim) j) - src.data (p.set (normDim src.rank dim) j₁)) /
        (((List.range (src.shape.getD (normDim src.rank dim) 0)).filter
      (fun j => (okOr (_expand_index index src dim) (defaultTensor ℤ)).data (p.set (normDim src.rank dim) j) = (g : ℤ))).map (fun j => Real.exp (src.data (p.set (normDim src.rank dim) j) - src.data (p.set (normDim src.rank dim) j₁)))).sum := by
    intro j hj
    rcases List.mem_filter.mp hj with ⟨hjr, hjc⟩
    have hjceq : (okOr (_expand_index index src dim) (defaultTensor ℤ)).data (p.set (normDim src.rank dim) j) = (g : ℤ) := of_decide_eq_true hjc
    rw [hdat (p.set (normDim src.rank dim) j), hjceq, Int.toNat_natCast, List.set_set, hPRE,
      WithBot.unbot'_coe, hmax]
  rw [List.map_congr_left hout, map_div_sum, div_self hSne]

end SDPV

namespace SDPV

/-- C3: whenever grouped softmax succeeds on index values in the valid
range, every element of the returned array is non-negative; for every group
with at least one contributing element the outputs across the group's
elements sum to within 1e-5 of one (in the exact-real model the sum is
exactly one, so in particular it exceeds the epsilon floor); and a group
containing exactly one element yields output exactly one at that
position. -/
theorem claim_C3_softmax_normalization (src : Tensor ℝ) (index : Tensor ℤ) (dim : ℤ)
    (ds : Option ℤ)
    (hd : normDim src.rank dim < src.rank)
    (hres : isOkE (resolveDimSize index ds) = true)
    (hE : isOkE (_expand_index index src dim) = true)
    (hsh : (okOr (_expand_index index src dim) (defaultTensor ℤ)).shape = src.shape)
    (hbd : ∀ q ∈ allCoords index.shape, 0 ≤ index.data q ∧ index.data q < (okOr (resolveDimSize index ds) 0)) :
    isOkE (scatter_softmax src index dim ds) = true ∧
    (∀ x : List ℕ, 0 ≤ (okOr (scatter_softmax src index dim ds) (defaultTensor ℝ)).data x) ∧
    (∀ p ∈ allCoords src.shape, ∀ g : ℕ,
      ((List.range (src.shape.getD (normDim src.rank dim) 0)).filter
      (fun j => (okOr (_expand_index index src dim) (defaultTensor ℤ)).data (p.set (normDim src.rank dim) j) = (g : ℤ))) ≠ [] →
      |(((List.range (src.shape.getD (normDim src.rank dim) 0)).filter
      (fun j => (okOr (_expand_index index src dim) (defaultTensor ℤ)).data (p.set (normDim src.rank dim) j) = (g : ℤ))).map (fun j => (okOr (scatter_softmax src index dim ds) (defaultTensor ℝ)).data (p.set (normDim src.rank dim) j))).sum - 1| ≤ (1e-5 : ℝ)) ∧
    (∀ p ∈ allCoords src.shape, ∀ g j₀ : ℕ,
      ((List.range (src.shape.getD (normDim src.rank dim) 0)).filter
      (fun j => (okOr (_expand_index index src dim) (defaultTensor ℤ)).data (p.set (normDim src.rank dim) j) = (g : ℤ))) = [j₀] →
      (okOr (scatter_softmax src index dim ds) (defaultTensor ℝ)).data (p.set (normDim src.rank dim) j₀) = 1) := by
  have hres2 : resolveDimSize index ds = .ok (okOr (resolveDimSize index ds) 0) := okOr_spec _ hres
  have hE2 : _expand_index index src dim = .ok (okOr (_expand_index index src dim) (defaultTensor ℤ)) := okOr_spec _ hE
  have hEc : _expand_index_core index src (normDim src.rank dim) = .ok (okOr (_expand_index index src dim) (defaultTensor ℤ)) := hE2
  have hs1 := scatter_softmax_core_eq src hres2 hEc
  have hun1 : scatter_softmax src index dim ds =
      scatter_softmax_core src index (normDim src.rank dim) ds := rfl
  have hdat : ∀ x : List ℕ, (okOr (scatter_softmax src index dim ds) (defaultTensor ℝ)).data x =
      Real.exp (src.data x -
        WithBot.unbot' 0 ((Tensor.scatter_reduce_amax ⟨((src.map (fun x => (x : WithBot ℝ))).shape.set (normDim src.rank dim) (okOr (resolveDimSize index ds) 0).toNat), fun _ => (⊥ : WithBot ℝ)⟩ (normDim src.rank dim) (okOr (_expand_index index src dim) (defaultTensor ℤ))
      (src.map (fun x => (x : WithBot ℝ)))).data (x.set (normDim src.rank dim) ((okOr (_expand_index index src dim) (defaultTensor ℤ)).data x).toNat))) /
      max ((Tensor.scatter_add ⟨(src.shape.set (normDim src.rank dim) (okOr (resolveDimSize index ds) 0).toNat), fun _ => (0 : ℝ)⟩ (normDim src.rank dim) (okOr (_expand_index index src dim) (defaultTensor ℤ)) ((Tensor.zip src (((Tensor.scatter_reduce_amax ⟨((src.map (fun x => (x : WithBot ℝ))).shape.set (normDim src.rank dim) (okOr (resolveDimSize index ds) 0).toNat), fun _ => (⊥ : WithBot ℝ)⟩ (normDim src.rank dim) (okOr (_expand_index index src dim) (defaultTensor ℤ))
      (src.map (fun x => (x : WithBot ℝ)))).map (fun v => WithBot.unbot' 0 v)).gather (normDim src.rank dim) (okOr (_expand_index index src dim) (defaultTensor ℤ)))
      (fun a b => a - b)).map Real.exp)).data (x.set (normDim src.rank dim) ((okOr (_expand_index index src dim) (defaultTensor ℤ)).data x).toNat)) (1e-12 : ℝ) := by
    intro x
    rw [hun1, hs1, okOrOk, bigDataLemma]
  refine ⟨by rw [hun1, hs1]; rfl, ?_, ?_, ?_⟩
  · intro x
    rw [hdat x]
    exact div_nonneg (Real.exp_nonneg _)
      (le_trans (by norm_num : (0 : ℝ) ≤ 1e-12) (le_max_right _ _))
  · intro p hp g hne
    rw [softmax_group_sum_eq_one src index dim ds hd hres hE hsh
      (fun q hq => (hbd q hq).1) hp g hne]
    norm_num
  · intro p hp g j₀ hJ
    have h1 := softmax_group_sum_eq_one src index dim ds hd hres hE hsh
      (fun q hq => (hbd q hq).1) hp g (by rw [hJ]; exact List.cons_ne_nil _ _)
    rw [hJ] at h1
    simpa using h1

end SDPV

namespace SDPV

theorem claim_C3_softmax_normalization_witness :
    normDim (⟨[4], fun _ => (0 : ℝ)⟩ : Tensor ℝ).rank 0 < (⟨[4], fun _ => (0 : ℝ)⟩ : Tensor ℝ).rank ∧
    isOkE (resolveDimSize (⟨[4], fun p => if p.headD 0 ≤ 1 then (0 : ℤ) else 1⟩ : Tensor ℤ) none) = true ∧
    isOkE (_expand_index (⟨[4], fun p => if p.headD 0 ≤ 1 then (0 : ℤ) else 1⟩ : Tensor ℤ) (⟨[4], fun _ => (0 : ℝ)⟩ : Tensor ℝ) 0) = true ∧
    (okOr (_expand_index (⟨[4], fun p => if p.headD 0 ≤ 1 then (0 : ℤ) else 1⟩ : Tensor ℤ) (⟨[4], fun _ => (0 : ℝ)⟩ : Tensor ℝ) 0) (defaultTensor ℤ)).shape = (⟨[4], fun _ => (0 : ℝ)⟩ : Tensor ℝ).shape ∧
    (∀ q ∈ allCoords (⟨[4], fun p => if p.headD 0 ≤ 1 then (0 : ℤ) else 1⟩ : Tensor ℤ).shape,
      0 ≤ (⟨[4], fun p => if p.headD 0 ≤ 1 then (0 : ℤ) else 1⟩ : Tensor ℤ).data q ∧ (⟨[4], fun p => if p.headD 0 ≤ 1 then (0 : ℤ) else 1⟩ : Tensor ℤ).data q < (okOr (resolveDimSize (⟨[4], fun p => if p.headD 0 ≤ 1 then (0 : ℤ) else 1⟩ : Tensor ℤ) none) 0)) ∧
    (isOkE (scatter_softmax (⟨[4], fun _ => (0 : ℝ)⟩ : Tensor ℝ) (⟨[4], fun p => if p.headD 0 ≤ 1 then (0 : ℤ) else 1⟩ : Tensor ℤ) 0 none) = true ∧
    (∀ x : List ℕ, 0 ≤ (okOr (scatter_softmax (⟨[4], fun _ => (0 : ℝ)⟩ : Tensor ℝ) (⟨[4], fun p => if p.headD 0 ≤ 1 then (0 : ℤ) else 1⟩ : Tensor ℤ) 0 none) (defaultTensor ℝ)).data x) ∧
    (∀ p ∈ allCoords (⟨[4], fun _ => (0 : ℝ)⟩ : Tensor ℝ).shape, ∀ g : ℕ,
      ((List.range ((⟨[4], fun _ => (0 : ℝ)⟩ : Tensor ℝ).shape.getD (normDim (⟨[4], fun _ => (0 : ℝ)⟩ : Tensor ℝ).rank 0) 0)).filter
      (fun j => (okOr (_expand_index (⟨[4], fun p => if p.headD 0 ≤ 1 then (0 : ℤ) else 1⟩ : Tensor ℤ) (⟨[4], fun _ => (0 : ℝ)⟩ : Tensor ℝ) 0) (defaultTensor ℤ)).data (p.set (normDim (⟨[4], fun _ => (0 : ℝ)⟩ : Tensor ℝ).rank 0) j) = (g : ℤ))) ≠ [] →
      |(((List.range ((⟨[4], fun _ => (0 : ℝ)⟩ : Tensor ℝ).shape.getD (normDim (⟨[4], fun _ => (0 : ℝ)⟩ : Tensor ℝ).rank 0) 0)).filter
      (fun j => (okOr (_expand_index (⟨[4], fun p => if p.headD 0 ≤ 1 then (0 : ℤ) else 1⟩ : Tensor ℤ) (⟨[4], fun _ => (0 : ℝ)⟩ : Tensor ℝ) 0) (defaultTensor ℤ)).data (p.set (normDim (⟨[4], fun _ => (0 : ℝ)⟩ : Tensor ℝ).rank 0) j) = (g : ℤ))).map (fun j => (okOr (scatter_softmax (⟨[4], fun _ => (0 : ℝ)⟩ : Tensor ℝ) (⟨[4], fun p => if p.headD 0 ≤ 1 then (0 : ℤ) else 1⟩ : Tensor ℤ) 0 none) (defaultTensor ℝ)).data (p.set (normDim (⟨[4], fun _ => (0 : ℝ)⟩ : Tensor ℝ).rank 0) j))).sum - 1| ≤ (1e-5 : ℝ)) ∧
    (∀ p ∈ allCoords (⟨[4], fun _ => (0 : ℝ)⟩ : Tensor ℝ).shape, ∀ g j₀ : ℕ,
      ((List.range ((⟨[4], fun _ => (0 : ℝ)⟩ : Tensor ℝ).shape.getD (normDim (⟨[4], fun _ => (0 : ℝ)⟩ : Tensor ℝ).rank 0) 0)).filter
      (fun j => (okOr (_expand_index (⟨[4], fun p => if p.headD 0 ≤ 1 then (0 : ℤ) else 1⟩ : Tensor ℤ) (⟨[4], fun _ => (0 : ℝ)⟩ : Tensor ℝ) 0) (defaultTensor ℤ)).data (p.set (normDim (⟨[4], fun _ => (0 : ℝ)⟩ : Tensor ℝ).rank 0) j) = (g : ℤ))) = [j₀] →
      (okOr (scatter_softmax (⟨[4], fun _ => (0 : ℝ)⟩ : Tensor ℝ) (⟨[4], fun p => if p.headD 0 ≤ 1 then (0 : ℤ) else 1⟩ : Tensor ℤ) 0 none) (defaultTensor ℝ)).data (p.set (normDim (⟨[4], fun _ => (0 : ℝ)⟩ : Tensor ℝ).rank 0) j₀) = 1)) :=
  ⟨by decide, by decide, by decide, by decide, by decide,
    claim_C3_softmax_normalization _ _ _ _ (by decide) (by decide) (by decide) (by decide)
      (by decide)⟩

end SDPV
